import Mathlib

/-!
# Trackable errors: identity, causal chains and chain inspection

A shallow embedding of `trackable.go` (the error value and its methods) and of
`api.go` (the chain operations and the stack renderer), followed by theorems
about them.

Go error values are pointers, and several operations compare or allocate
pointers, so the embedding is over an explicit heap:

* a heap is a list of cells, the address of a cell is its index;
* an `error` interface value is `none` (nil) or `some a` (a pointer to cell `a`);
* `&trackable{..}` and `&e` append a cell and return its index.

Loops that follow cause links (`AsStack`, `HasTracked`, `errors.Is`) take a
fuel argument and return `none` when it runs out; the theorems show that a
finite chain of length `n` is always served by fuel `n + 1`. `errors.Is` also
searches the causes of a multi-cause error, which are not part of the chain;
there the fuel bounds the depth of the search.

`fmt.Sprintf(msg, args...)` is applied by the caller: every constructor of the
embedding receives the already formatted message.
-/

namespace Trackerr

/-! ## Data model -/

/-- Address of a heap cell. -/
abbrev Addr := Nat

/-- Go interface value of type `error`: `none` is nil, `some a` points to the
heap cell `a`. Two interface values are `==` exactly when they are equal here. -/
abbrev Error := Option Addr

/-- Modelled from the spec: the declarations of the pointer types
`*trackedError` and `*untrackedError`, on which `api.go` makes its type
assertions, are missing from the sources. The spec describes one Error Value
with an identity, a message, a cause and a checkpoint flag, whose tracked
variant has an identity-bearing representation. `Kind` records under which of
the two pointer types a value is seen, and the checkpoint flag of a tracked
one. -/
inductive Kind where
  | untrackedError
  | trackedError (isCheckpoint : Bool)
deriving DecidableEq, Repr

/-- The struct `trackable` of `trackable.go`: `id`, `msg`, `cause`. The field
`kind` is not a Go field, it is the type of the pointer through which the
struct is reached (see `Kind`); copying the struct keeps it. -/
structure trackable where
  kind : Kind
  id : Int
  msg : String
  cause : Error
deriving DecidableEq, Repr

/-- An error from outside the library. It always has a rendered text
(`Error()`), it may expose `Unwrap() error` (`unwrap = some c`, where `c` is
what the method returns) and it may expose `Is(error) bool`. A multi-cause
error, such as the result of `errors.Join`, exposes `Unwrap() []error`
instead (`unwrapMulti = some cs`); a Go type has one method `Unwrap`, and
`unwrapMulti` is looked at only when `unwrap = none`, in the order of the type
switch of `errors.Is`. `comparable` is `reflect.Type.Comparable` of the
dynamic type. -/
structure thirdParty where
  text : String
  unwrap : Option Error
  isMethod : Option (Error → Bool)
  unwrapMulti : Option (List Error) := none
  comparable : Bool := true

/-- Contents of a heap cell: one of the library's own values or a third-party
error. -/
inductive Cell where
  | own (v : trackable)
  | foreign (o : thirdParty)

/-- The heap: cell `a` is the `a`-th element. -/
abbrev Heap := List Cell

/-- Cell a non-nil error points to. -/
def deref (h : Heap) (e : Error) : Option Cell :=
  match e with
  | none => none
  | some a => h[a]?

/-- Allocation of a new cell (`&T{..}`, or `&e` for a local copy `e`): the
cell is appended and its address returned. -/
def alloc (h : Heap) (c : Cell) : Heap × Error :=
  (h ++ [c], some h.length)

/-- Type assertion `target.(*trackable)`: the struct behind the pointer when
the error is one of the library's own values. -/
def asTrackable (h : Heap) (target : Error) : Option trackable :=
  match deref h target with
  | some (Cell.own it) => some it
  | _ => none

/-! ## trackable.go -/

/-- Modelled from the spec: `newId` is missing from the sources. The identity
allocator returns a strictly increasing sequence of positive integers
starting at 1; the state is the last identity handed out. -/
def newId (counter : Int) : Int × Int :=
  (counter + 1, counter + 1)

/-- Go: `Track(msg, args...)`; returns the new counter, the new heap and the
pointer. -/
def Track (counter : Int) (h : Heap) (msg : String) : Int × Heap × Error :=
  let (counter1, id) := newId counter
  let (h1, e) := alloc h (Cell.own { kind := Kind.trackedError false, id := id, msg := msg, cause := none })
  (counter1, h1, e)

/-- Go: `Untracked(msg, args...)`; the zero value of `id` is 0. -/
def Untracked (h : Heap) (msg : String) : Heap × Error :=
  alloc h (Cell.own { kind := Kind.untrackedError, id := 0, msg := msg, cause := none })

/-- Go: `Wrap(cause, msg, args...)`. -/
def Wrap (h : Heap) (cause : Error) (msg : String) : Heap × Error :=
  alloc h (Cell.own { kind := Kind.untrackedError, id := 0, msg := msg, cause := cause })

/-- Go: `func (e trackable) Unwrap() error`. -/
def trackable.Unwrap (e : trackable) : Error :=
  e.cause

/-- Go: `func (e trackable) Is(target error) bool`. -/
def trackable.Is (h : Heap) (e : trackable) (target : Error) : Bool :=
  if e.id ≤ 0 then
    false
  else
    match asTrackable h target with
    | some it => e.id == it.id
    | none => false

/-- Go: `func (e trackable) Wrap(cause error) error`. The receiver is a copy
of the struct; the copy is changed and moved to a new cell. -/
def trackable.Wrap (h : Heap) (e : trackable) (cause : Error) : Heap × Error :=
  let e1 := { e with cause := cause }
  alloc h (Cell.own e1)

/-- Go: `func (e trackable) Because(msg string, args ...any) error`. -/
def trackable.Because (h : Heap) (e : trackable) (msg : String) : Heap × Error :=
  let (h1, c) := Untracked h msg
  let e1 := { e with cause := c }
  alloc h1 (Cell.own e1)

/-- Go: `func (e trackable) BecauseOf(cause error, msg string, args ...any) error`. -/
def trackable.BecauseOf (h : Heap) (e : trackable) (cause : Error) (msg : String) : Heap × Error :=
  let (h1, c) := Trackerr.Wrap h cause msg
  let e1 := { e with cause := c }
  alloc h1 (Cell.own e1)

/-- A method with a value receiver called through a pointer, `p.Wrap(cause)`:
the struct is loaded from the heap and handed to the method. `none` when `p`
is not one of the library's values. -/
def callWrap (h : Heap) (p : Error) (cause : Error) : Option (Heap × Error) :=
  (asTrackable h p).map fun e => trackable.Wrap h e cause

/-- Go: `p.Because(msg)` through a pointer, see `callWrap`. -/
def callBecause (h : Heap) (p : Error) (msg : String) : Option (Heap × Error) :=
  (asTrackable h p).map fun e => trackable.Because h e msg

/-- Go: `p.BecauseOf(cause, msg)` through a pointer, see `callWrap`. -/
def callBecauseOf (h : Heap) (p : Error) (cause : Error) (msg : String) : Option (Heap × Error) :=
  (asTrackable h p).map fun e => trackable.BecauseOf h e cause msg

/-! ## The standard library functions `errors.Unwrap` and `errors.Is` -/

/-- Type assertion `e.(interface{ Unwrap() error })` followed by the call:
`some c` when `e` has the method and it returns `c`, `none` when it has not.
The library's values all have it (`trackable.Unwrap`). -/
def callUnwrap (h : Heap) (e : Error) : Option Error :=
  match deref h e with
  | some (Cell.own v) => some v.Unwrap
  | some (Cell.foreign o) => o.unwrap
  | none => none

/-- Go: `errors.Unwrap(err)`: the result of the `Unwrap` method, nil when the
error has none. -/
def errorsUnwrap (h : Heap) (err : Error) : Error :=
  match callUnwrap h err with
  | some c => c
  | none => none

/-- Type assertion `err.(interface{ Is(error) bool })` followed by the call:
`none` when `err` has no such method. -/
def callIs (h : Heap) (err target : Error) : Option Bool :=
  match deref h err with
  | some (Cell.own v) => some (v.Is h target)
  | some (Cell.foreign o) => o.isMethod.map fun f => f target
  | none => none

/-- Type assertion `err.(interface{ Unwrap() []error })` followed by the
call: `some cs` when `err` has the method and it returns `cs`. -/
def callUnwrapMulti (h : Heap) (err : Error) : Option (List Error) :=
  match deref h err with
  | some (Cell.foreign o) => o.unwrapMulti
  | _ => none

/-- Go: `reflectlite.TypeOf(target).Comparable()` for a non-nil target.
Pointers to the library's structs are comparable. `none` for a pointer
outside the heap, which Go does not have. -/
def isComparable (h : Heap) (target : Error) : Option Bool :=
  match deref h target with
  | some (Cell.own _) => some true
  | some (Cell.foreign o) => some o.comparable
  | none => none

/-- The range loop of the multi-cause branch of `errors.Is`: for each `err`
of `x.Unwrap()`, in order, return true if `is(err, ...)`; return false after
the last one. The argument `is` is the recursive call. -/
def errorsIsRange (is : Error → Option Bool) : List Error → Option Bool
  | [] => some false
  | err :: rest =>
    match is err with
    | none => none
    | some true => some true
    | some false => errorsIsRange is rest

/-- Go: `is(err, target, targetComparable)`, the loop of `errors.Is`: compare
(when the target is comparable), ask the `Is` method, then unwrap: a single
cause continues the loop and ends it when nil, several causes are searched one
after the other, an error without `Unwrap` ends the search. The fuel bounds
the depth of unwrapping. A non-nil pointer outside the heap, which Go does not
have, gives no result. -/
def errorsIsLoop (h : Heap) (target : Error) (targetComparable : Bool) :
    Nat → Error → Option Bool
  | 0, _ => none
  | fuel + 1, err =>
    if targetComparable = true ∧ err = target then
      some true
    else if callIs h err target = some true then
      some true
    else
      match callUnwrap h err with
      | some cause =>
        match cause with
        | none => some false
        | some a => errorsIsLoop h target targetComparable fuel (some a)
      | none =>
        match callUnwrapMulti h err with
        | some causes => errorsIsRange (errorsIsLoop h target targetComparable fuel) causes
        | none => if err = none ∨ (deref h err).isSome = true then some false else none

/-- Go: `errors.Is(err, target)`. -/
def errorsIs (h : Heap) (fuel : Nat) (err target : Error) : Option Bool :=
  if err = none ∨ target = none then
    some (decide (err = target))
  else
    match isComparable h target with
    | none => none
    | some targetComparable => errorsIsLoop h target targetComparable fuel err

/-! ## api.go -/

/-- Go: `IsTracked(e)`, the type assertion `e.(*trackedError)`. -/
def IsTracked (h : Heap) (e : Error) : Bool :=
  match asTrackable h e with
  | some v =>
    match v.kind with
    | Kind.trackedError _ => true
    | Kind.untrackedError => false
  | none => false

/-- Go: `IsCheckpoint(e)`; `te.IsCheckpoint()` reads the checkpoint flag. -/
def IsCheckpoint (h : Heap) (e : Error) : Bool :=
  match asTrackable h e with
  | some v =>
    match v.kind with
    | Kind.trackedError cp => cp
    | Kind.untrackedError => false
  | none => false

/-- The loop of `HasTracked`. -/
def HasTrackedLoop (h : Heap) : Nat → Error → Option Bool
  | 0, _ => none
  | fuel + 1, e =>
    if e = none then
      some false
    else if IsTracked h e then
      some true
    else
      match callUnwrap h e with
      | some c => HasTrackedLoop h fuel c
      | none => HasTrackedLoop h fuel none

/-- Go: `HasTracked(e)`. -/
def HasTracked (h : Heap) (fuel : Nat) (e : Error) : Option Bool :=
  HasTrackedLoop h fuel e

/-- Go: `Is(e, target)`, an alias for `errors.Is`. -/
def Is (h : Heap) (fuel : Nat) (e target : Error) : Option Bool :=
  errorsIs h fuel e target

/-- Go: `All(e, targets...)`. -/
def All (h : Heap) (fuel : Nat) (e : Error) : List Error → Option Bool
  | [] => some true
  | t :: targets =>
    match errorsIs h fuel e t with
    | none => none
    | some false => some false
    | some true => All h fuel e targets

/-- Go: `Any(e, targets...)`. -/
def Any (h : Heap) (fuel : Nat) (e : Error) : List Error → Option Bool
  | [] => some false
  | t :: targets =>
    match errorsIs h fuel e t with
    | none => none
    | some true => some true
    | some false => Any h fuel e targets

/-- The loop of `AsStack`. -/
def AsStackLoop (h : Heap) : Nat → Error → List Error → Option (List Error)
  | 0, _, _ => none
  | fuel + 1, e, stack =>
    if e = none then
      some stack
    else
      AsStackLoop h fuel (errorsUnwrap h e) (stack ++ [e])

/-- Go: `AsStack(e)`. -/
def AsStack (h : Heap) (fuel : Nat) (e : Error) : Option (List Error) :=
  AsStackLoop h fuel e []

/-! ## Strings

Go strings are modelled by `String`, a sequence of Unicode characters. The
functions of package `strings` used by `api.go` work on bytes; on valid UTF-8
a string ends with the bytes of a suffix exactly when it ends with its
characters, and white space is decided per character. -/

/-- Go: `unicode.IsSpace`: the characters with the Unicode property White
Space. -/
def unicodeIsSpace (c : Char) : Bool :=
  let n := c.toNat
  n == 0x09 || n == 0x0A || n == 0x0B || n == 0x0C || n == 0x0D || n == 0x20
    || n == 0x85 || n == 0xA0 || n == 0x1680 || (0x2000 ≤ n && n ≤ 0x200A)
    || n == 0x2028 || n == 0x2029 || n == 0x202F || n == 0x205F || n == 0x3000

/-- Go: `strings.HasSuffix(s, suffix)`. -/
def stringsHasSuffix (s suffix : String) : Bool :=
  suffix.data.isSuffixOf s.data

/-- Go: `strings.TrimSuffix(s, suffix)`: `s[:len(s)-len(suffix)]` when `s`
ends with `suffix`, otherwise `s`. -/
def stringsTrimSuffix (s suffix : String) : String :=
  if stringsHasSuffix s suffix then
    String.mk (s.data.take (s.data.length - suffix.data.length))
  else
    s

/-- Go: `strings.TrimSpace(s)`: all leading and trailing white space removed. -/
def stringsTrimSpace (s : String) : String :=
  String.mk ((s.data.dropWhile unicodeIsSpace).reverse.dropWhile unicodeIsSpace).reverse

/-! ## Rendering of a single error -/

/-- Go: `func (e *trackable) Error() string`, that is
`ErrorStack(e.msg, e.cause)`. The two-argument `ErrorStack` it calls is not in
the sources (the `ErrorStack` of `api.go` takes one argument), so it is a
parameter, `ErrorStack2`. -/
def trackable.Error (ErrorStack2 : Heap → String → Error → String) (h : Heap)
    (e : trackable) : String :=
  ErrorStack2 h e.msg e.cause

/-- The call `e.Error()` on an interface value: `none` stands for the panic
of calling a method on nil. -/
def callError (ErrorStack2 : Heap → String → Error → String) (h : Heap)
    (e : Error) : Option String :=
  match deref h e with
  | some (Cell.own v) => some (v.Error ErrorStack2 h)
  | some (Cell.foreign o) => some o.text
  | none => none

/-- Type assertion `e.(*untrackedError)`. -/
def isUntrackedError (h : Heap) (e : Error) : Bool :=
  match asTrackable h e with
  | some v =>
    match v.kind with
    | Kind.untrackedError => true
    | Kind.trackedError _ => false
  | none => false

/-- Go: `ErrorWithoutCause(e)`. -/
def ErrorWithoutCause (ErrorStack2 : Heap → String → Error → String) (h : Heap)
    (e : Error) : Option String :=
  match callError ErrorStack2 h e with
  | none => none
  | some s =>
    if isUntrackedError h e then
      some s
    else if IsTracked h e then
      some s
    else
      let cause := errorsUnwrap h e
      if cause = none then
        some s
      else
        match callError ErrorStack2 h cause with
        | none => none
        | some causeText =>
          let s1 := stringsTrimSuffix s causeText
          let s2 := stringsTrimSpace s1
          some (stringsTrimSuffix s2 ":")

/-! ## Constructors of api.go and the stack renderer -/

/-- Modelled from the spec: `globalRealm.Checkpoint` (type `IntRealm`) is
missing from the sources. The spec: `Checkpoint(msg, args...)` is identical to
`Track` but with the checkpoint flag set. -/
def Checkpoint (counter : Int) (h : Heap) (msg : String) : Int × Heap × Error :=
  let (counter1, id) := newId counter
  let (h1, e) := alloc h (Cell.own { kind := Kind.trackedError true, id := id, msg := msg, cause := none })
  (counter1, h1, e)

/-- Go: `Wrap(cause, msg, args...)` of `api.go`:
`e := globalRealm.Untracked(msg, args...); return e.Wrap(cause).(*untrackedError)`.
The realm's `Untracked` is missing from the sources and is taken to be the
`Untracked` of `trackable.go`; the copy made by the method keeps the pointer
type, so the type assertion succeeds. -/
def api.Wrap (h : Heap) (cause : Error) (msg : String) : Option (Heap × Error) :=
  let (h1, e) := Untracked h msg
  callWrap h1 e cause

/-- The loop of `ErrorStack` over the elements of `AsStack(e)`: `i` is the
index of the head of the list, `sb` the contents of the string builder. -/
def ErrorStackLoop (ErrorStack2 : Heap → String → Error → String) (h : Heap) :
    Nat → List Error → String → Option String
  | _, [], sb => some sb
  | i, cause :: rest, sb =>
    match ErrorWithoutCause ErrorStack2 h cause with
    | none => none
    | some errStr =>
      if IsCheckpoint h cause then
        let sb1 := if i = 0 then sb ++ "——" else sb ++ "\n——"
        let sb2 := sb1 ++ errStr
        let sb3 := sb2 ++ "——"
        ErrorStackLoop ErrorStack2 h (i + 1) rest sb3
      else
        let sb1 := if i = 0 then sb ++ "  " else sb ++ "\n⤷ "
        let sb2 := sb1 ++ errStr
        ErrorStackLoop ErrorStack2 h (i + 1) rest sb2

/-- Go: `ErrorStack(e)`. -/
def ErrorStack (ErrorStack2 : Heap → String → Error → String) (h : Heap) (fuel : Nat)
    (e : Error) : Option String :=
  match AsStack h fuel e with
  | none => none
  | some stack =>
    match ErrorStackLoop ErrorStack2 h 0 stack "" with
    | none => none
    | some sb => some (sb ++ "\n")

/-- Go: `Debug(e)`. The result is the text handed to `fmt.Print`, which writes
its string operands one after the other; the byte count and the write error
it returns are not modelled. -/
def Debug (ErrorStack2 : Heap → String → Error → String) (h : Heap) (fuel : Nat)
    (e : Error) : Option String :=
  match ErrorStack ErrorStack2 h fuel e with
  | none => none
  | some s =>
    if s = "" then
      some "[Debugging error] nil error"
    else
      some ("[Debugging error]\n" ++ s)

/-! ## Devices of the proofs

The definitions below are not functions of the program; the theorems use them
to describe what the loops compute. -/

/-- First `n` elements of the causal chain of `e`, up to the first nil. -/
def chain (h : Heap) : Nat → Error → List Error
  | 0, _ => []
  | n + 1, e => if e = none then [] else e :: chain h n (errorsUnwrap h e)

/-- What one step of `errors.Is` asks of the element `x`: is it the target
itself, or does its own `Is` method accept the target. -/
def matchesTarget (h : Heap) (target : Error) (targetComparable : Bool) (x : Error) : Bool :=
  (targetComparable && decide (x = target)) || (callIs h x target == some true)

/-- An instance of the parameter `ErrorStack2`: an Error Value renders as its
message alone. -/
def renderMessage (_h : Heap) (msg : String) (_cause : Error) : String :=
  msg

/-- The decoration of one frame in the words of the spec: a checkpoint frame
is bracketed by `——` on both sides and starts a new line unless it is the
first frame; any other frame is preceded by two blanks when it is the first
frame and by the arrow connector on a new line otherwise. -/
def frameText (first : Bool) (checkpoint : Bool) (text : String) : String :=
  if checkpoint then
    (if first then "" else "\n") ++ "——" ++ text ++ "——"
  else
    (if first then "  " else "\n⤷ ") ++ text

/-- The frames of a trace one after the other, in the words of the spec. Each
frame is a pair of its checkpoint flag and its display text. -/
def framesText : Bool → List (Bool × String) → String
  | _, [] => ""
  | first, (checkpoint, text) :: rest => frameText first checkpoint text ++ framesText false rest

/-! ## Example heaps -/

/-- A tracked error at address 0 and, at address 1, a third-party error
without a cause whose `Is` method accepts every target. -/
def heapPermissiveIs : Heap :=
  [Cell.own { kind := Kind.trackedError false, id := 1, msg := "t", cause := none },
   Cell.foreign { text := "x", unwrap := none, isMethod := some (fun _ => true) }]

/-- The heap after `t := Track("t")` and `w := Wrap(t, "w")`, starting from
the empty heap and the counter 0: `t` is at address 0, `w` at address 1. -/
def heapWrappedTracked : Heap :=
  (Wrap (Track 0 [] "t").2.1 (Track 0 [] "t").2.2 "w").1

/-- The heap after `b := Untracked("m")` and `a := Wrap(b, "m")`, starting
from the empty heap: `b` is at address 0, `a` at address 1. -/
def heapWrappedUntracked : Heap :=
  (Wrap (Untracked [] "m").1 (Untracked [] "m").2 "m").1

/-- A third-party error with the text `b` at address 0 and, at address 1, a
third-party error that unwraps to it and has the text of `" a" + ": " + "b"`. -/
def heapLeadingSpace : Heap :=
  [Cell.foreign { text := "b", unwrap := none, isMethod := none },
   Cell.foreign { text := " a: b", unwrap := some (some 0), isMethod := none }]

/-- A third-party error with the text `disk full` at address 0 and, at
address 1, a third-party error that unwraps to it, with the text
`save: disk full`. -/
def heapForeignChain : Heap :=
  [Cell.foreign { text := "disk full", unwrap := none, isMethod := none },
   Cell.foreign { text := "save: disk full", unwrap := some (some 0), isMethod := none }]

/-- The end-to-end scenario of the spec, from the empty heap and the counter
0: `root := Track("disk failure")`, `mid := Checkpoint("saving file")`,
`top := Wrap(mid.Wrap(root), "save failed")` with the `Wrap` of `api.go`. The
result is the final heap and `top`. -/
def scenario : Option (Heap × Error) :=
  let (counter1, h1, root) := Track 0 [] "disk failure"
  let (_, h2, mid) := Checkpoint counter1 h1 "saving file"
  match callWrap h2 mid root with
  | none => none
  | some (h3, midRoot) => api.Wrap h3 midRoot "save failed"

/-- The heap `scenario` ends in: `root` at address 0, `mid` at 1, `mid.Wrap(root)`
at 2, the untracked value made inside `Wrap` at 3 and `top` at 4. -/
def heapScenario : Heap :=
  [Cell.own { kind := Kind.trackedError false, id := 1, msg := "disk failure", cause := none },
   Cell.own { kind := Kind.trackedError true, id := 2, msg := "saving file", cause := none },
   Cell.own { kind := Kind.trackedError true, id := 2, msg := "saving file", cause := some 0 },
   Cell.own { kind := Kind.untrackedError, id := 0, msg := "save failed", cause := none },
   Cell.own { kind := Kind.untrackedError, id := 0, msg := "save failed", cause := some 2 }]

/-- A tracked error `t` at address 0 and, at address 1, a multi-cause error
as `errors.Join(t)` makes: no `Is` method, no `Unwrap() error`, and
`Unwrap() []error` returning `[t]`. -/
def heapJoin : Heap :=
  [Cell.own { kind := Kind.trackedError false, id := 1, msg := "t", cause := none },
   Cell.foreign { text := "t", unwrap := none, isMethod := none, unwrapMulti := some [some 0] }]

/-- The heap after `b := Untracked("m")`, `j := errors.Join(b)` and
`a := Wrap(j, "m")`: `b` is at address 0, `j` at address 1, `a` at address 2. -/
def heapJoinUntracked : Heap :=
  [Cell.own { kind := Kind.untrackedError, id := 0, msg := "m", cause := none },
   Cell.foreign { text := "m", unwrap := none, isMethod := none, unwrapMulti := some [some 0] },
   Cell.own { kind := Kind.untrackedError, id := 0, msg := "m", cause := some 1 }]

end Trackerr

namespace Trackerr

/-! ## Helper lemmas about the heap -/

theorem deref_middle (hpre hpost : Heap) (c : Cell) :
    deref (hpre ++ c :: hpost) (some hpre.length) = some c := by
  show (hpre ++ c :: hpost)[hpre.length]? = some c
  rw [List.getElem?_append_right (Nat.le_refl _)]
  simp

theorem asTrackable_middle (hpre hpost : Heap) (v : trackable) :
    asTrackable (hpre ++ Cell.own v :: hpost) (some hpre.length) = some v := by
  simp [asTrackable, deref_middle]

/-! ## The causal chain as a list -/

theorem chain_none (h : Heap) (n : Nat) : chain h n none = [] := by
  cases n <;> simp [chain]

theorem chain_length_le (h : Heap) (n : Nat) (e : Error) : (chain h n e).length ≤ n := by
  induction n generalizing e with
  | zero => simp [chain]
  | succ n ih =>
    by_cases he : e = none
    · simp [chain, he]
    · simp only [chain, he, if_false, List.length_cons]
      exact Nat.succ_le_succ (ih _)

theorem chain_getElem (h : Heap) (n : Nat) (e : Error) (i : Nat)
    (hi : i < (chain h n e).length) :
    (chain h n e)[i]? = some ((errorsUnwrap h)^[i] e) ∧ (errorsUnwrap h)^[i] e ≠ none := by
  induction n generalizing e i with
  | zero => simp [chain] at hi
  | succ n ih =>
    by_cases he : e = none
    · simp [chain, he] at hi
    · simp only [chain, he, if_false, List.length_cons] at hi
      simp only [chain, he, if_false]
      cases i with
      | zero => simp [he]
      | succ i =>
        have hlt : i < (chain h n (errorsUnwrap h e)).length := by omega
        simpa [Function.iterate_succ] using ih (errorsUnwrap h e) i hlt

theorem chain_end (h : Heap) (n : Nat) (e : Error) (hfin : (errorsUnwrap h)^[n] e = none) :
    (errorsUnwrap h)^[(chain h n e).length] e = none := by
  induction n generalizing e with
  | zero => simpa [chain] using hfin
  | succ n ih =>
    by_cases he : e = none
    · simp [chain, he]
    · simp only [chain, he, if_false, List.length_cons, Function.iterate_succ,
        Function.comp_apply]
      exact ih _ (by simpa [Function.iterate_succ] using hfin)

theorem AsStackLoop_eq_chain (h : Heap) (n : Nat) (e : Error) (acc : List Error) (fuel : Nat)
    (hfin : (errorsUnwrap h)^[n] e = none) (hfuel : n + 1 ≤ fuel) :
    AsStackLoop h fuel e acc = some (acc ++ chain h n e) := by
  induction n generalizing e acc fuel with
  | zero =>
    obtain ⟨f, rfl⟩ : ∃ f, fuel = f + 1 := ⟨fuel - 1, by omega⟩
    have he : e = none := by simpa using hfin
    simp [AsStackLoop, chain, he]
  | succ n ih =>
    obtain ⟨f, rfl⟩ : ∃ f, fuel = f + 1 := ⟨fuel - 1, by omega⟩
    by_cases he : e = none
    · simp [AsStackLoop, chain, he]
    · have hfin1 : (errorsUnwrap h)^[n] (errorsUnwrap h e) = none := by
        simpa [Function.iterate_succ] using hfin
      simp only [AsStackLoop, chain, he, if_false]
      rw [ih (errorsUnwrap h e) (acc ++ [e]) f hfin1 (by omega)]
      simp

theorem AsStack_eq_chain (h : Heap) (n : Nat) (e : Error) (fuel : Nat)
    (hfin : (errorsUnwrap h)^[n] e = none) (hfuel : n + 1 ≤ fuel) :
    AsStack h fuel e = some (chain h n e) := by
  simpa [AsStack] using AsStackLoop_eq_chain h n e [] fuel hfin hfuel

theorem callUnwrap_of_errorsUnwrap (h : Heap) (e : Error) (a : Addr)
    (hu : errorsUnwrap h e = some a) : callUnwrap h e = some (some a) := by
  unfold errorsUnwrap at hu
  cases hc : callUnwrap h e with
  | none => simp [hc] at hu
  | some c =>
    rw [hc] at hu
    simp only at hu
    rw [hu]

theorem errorsIsLoop_eq_chain (h : Heap) (target : Error) (cmp : Bool) (n : Nat) (e : Error)
    (fuel : Nat) (hne : e ≠ none) (hfin : (errorsUnwrap h)^[n] e = none) (hfuel : n ≤ fuel)
    (hsingle : ∀ x ∈ chain h n e, (deref h x).isSome = true ∧ callUnwrapMulti h x = none) :
    errorsIsLoop h target cmp fuel e = some ((chain h n e).any (matchesTarget h target cmp)) := by
  induction n generalizing e fuel with
  | zero => exact absurd (by simpa using hfin) hne
  | succ n ih =>
    obtain ⟨f, rfl⟩ : ∃ f, fuel = f + 1 := ⟨fuel - 1, by omega⟩
    have hfin1 : (errorsUnwrap h)^[n] (errorsUnwrap h e) = none := by
      simpa [Function.iterate_succ] using hfin
    have hchain : chain h (n + 1) e = e :: chain h n (errorsUnwrap h e) := by
      simp [chain, hne]
    rw [hchain] at hsingle ⊢
    obtain ⟨halloc, hmulti⟩ := hsingle e (List.mem_cons_self _ _)
    rw [errorsIsLoop]
    simp only [List.any_cons, matchesTarget]
    by_cases h1 : cmp = true ∧ e = target
    · simp [h1.1, h1.2]
    · by_cases h2 : callIs h e target = some true
      · simp [h2]
      · have hm : ((cmp && decide (e = target)) || (callIs h e target == some true)) = false := by
          simp only [Bool.or_eq_false_iff, Bool.and_eq_false_iff, decide_eq_false_iff_not,
            beq_eq_false_iff_ne, ne_eq]
          refine ⟨?_, h2⟩
          by_cases hc : cmp = true
          · exact Or.inr (fun he => h1 ⟨hc, he⟩)
          · exact Or.inl (by simpa using hc)
        rw [if_neg h1, if_neg h2, hm, Bool.false_or]
        cases hu : errorsUnwrap h e with
        | none =>
          rw [chain_none]
          cases hcu : callUnwrap h e with
          | none => simp [hmulti, halloc]
          | some c =>
            have hcn : c = none := by simpa [errorsUnwrap, hcu] using hu
            simp [hcn]
        | some a =>
          rw [callUnwrap_of_errorsUnwrap h e a hu]
          have hfin2 : (errorsUnwrap h)^[n] (some a) = none := by rw [← hu]; exact hfin1
          have hs2 : ∀ x ∈ chain h n (some a),
              (deref h x).isSome = true ∧ callUnwrapMulti h x = none := by
            intro x hx
            exact hsingle x (List.mem_cons_of_mem _ (by rw [hu]; exact hx))
          exact ih (some a) f (by simp) hfin2 (by omega) hs2

theorem errorsIsLoop_hit (h : Heap) (target : Error) (cmp : Bool) (n : Nat) (e : Error)
    (fuel : Nat) (hfin : (errorsUnwrap h)^[n] e = none) (hfuel : n ≤ fuel)
    (hhit : ∃ x ∈ chain h n e, matchesTarget h target cmp x = true) :
    errorsIsLoop h target cmp fuel e = some true := by
  induction n generalizing e fuel with
  | zero =>
    obtain ⟨x, hx, _⟩ := hhit
    simp [chain] at hx
  | succ n ih =>
    obtain ⟨f, rfl⟩ : ∃ f, fuel = f + 1 := ⟨fuel - 1, by omega⟩
    have hne : e ≠ none := by
      intro he
      obtain ⟨x, hx, _⟩ := hhit
      simp [chain, he] at hx
    have hfin1 : (errorsUnwrap h)^[n] (errorsUnwrap h e) = none := by
      simpa [Function.iterate_succ] using hfin
    have hchain : chain h (n + 1) e = e :: chain h n (errorsUnwrap h e) := by
      simp [chain, hne]
    rw [hchain] at hhit
    rw [errorsIsLoop]
    by_cases h1 : cmp = true ∧ e = target
    · simp [h1.1, h1.2]
    · by_cases h2 : callIs h e target = some true
      · simp [h2]
      · rw [if_neg h1, if_neg h2]
        have hrest : ∃ x ∈ chain h n (errorsUnwrap h e), matchesTarget h target cmp x = true := by
          obtain ⟨x, hx, hm⟩ := hhit
          rcases List.mem_cons.1 hx with hxe | hxr
          · subst hxe
            exfalso
            simp only [matchesTarget, Bool.or_eq_true, Bool.and_eq_true, decide_eq_true_eq,
              beq_iff_eq] at hm
            rcases hm with ⟨hc, he⟩ | hcall
            · exact h1 ⟨hc, he⟩
            · exact h2 hcall
          · exact ⟨x, hxr, hm⟩
        cases hu : errorsUnwrap h e with
        | none =>
          obtain ⟨x, hx, _⟩ := hrest
          simp [hu, chain_none] at hx
        | some a =>
          rw [callUnwrap_of_errorsUnwrap h e a hu]
          rw [hu] at hrest hfin1
          exact ih (some a) f hfin1 (by omega) hrest

theorem HasTrackedLoop_eq_chain (h : Heap) (n : Nat) (e : Error) (fuel : Nat)
    (hfin : (errorsUnwrap h)^[n] e = none) (hfuel : n + 1 ≤ fuel) :
    HasTrackedLoop h fuel e = some ((chain h n e).any (IsTracked h)) := by
  induction n generalizing e fuel with
  | zero =>
    obtain ⟨f, rfl⟩ : ∃ f, fuel = f + 1 := ⟨fuel - 1, by omega⟩
    have he : e = none := by simpa using hfin
    simp [HasTrackedLoop, chain, he]
  | succ n ih =>
    obtain ⟨f, rfl⟩ : ∃ f, fuel = f + 1 := ⟨fuel - 1, by omega⟩
    by_cases he : e = none
    · simp [HasTrackedLoop, chain, he]
    · have hfin1 : (errorsUnwrap h)^[n] (errorsUnwrap h e) = none := by
        simpa [Function.iterate_succ] using hfin
      have hstep : (match callUnwrap h e with
          | some c => HasTrackedLoop h f c
          | none => HasTrackedLoop h f none) = HasTrackedLoop h f (errorsUnwrap h e) := by
        unfold errorsUnwrap
        cases callUnwrap h e <;> rfl
      simp only [HasTrackedLoop, chain, he, if_false, List.any_cons, hstep]
      by_cases ht : IsTracked h e = true
      · simp [ht]
      · simp only [ht, if_false]
        rw [ih (errorsUnwrap h e) f hfin1 (by omega)]
        simp [ht]

theorem deref_append (h l : Heap) (e : Error) (c : Cell) (hc : deref h e = some c) :
    deref (h ++ l) e = some c := by
  cases e with
  | none => simp [deref] at hc
  | some a =>
    have hlt : a < h.length := by
      by_contra hge
      have hnone : h[a]? = none := List.getElem?_eq_none (Nat.le_of_not_lt hge)
      simp [deref, hnone] at hc
    show (h ++ l)[a]? = some c
    rw [List.getElem?_append_left hlt]
    exact hc

theorem deref_new (h : Heap) (c : Cell) : deref (h ++ [c]) (some h.length) = some c :=
  deref_middle h [] c

theorem deref_fresh (h : Heap) : deref h (some h.length) = none := by
  show h[h.length]? = none
  exact List.getElem?_eq_none (Nat.le_refl _)

theorem deref_lt (h : Heap) (a : Addr) (c : Cell) (hc : deref h (some a) = some c) :
    a < h.length := by
  by_contra hge
  have hnone : h[a]? = none := List.getElem?_eq_none (Nat.le_of_not_lt hge)
  simp [deref, hnone] at hc

theorem asTrackable_some (h : Heap) (e : Error) (v : trackable) :
    asTrackable h e = some v ↔ deref h e = some (Cell.own v) := by
  unfold asTrackable
  cases hd : deref h e with
  | none => simp
  | some c =>
    cases c with
    | own w => simp
    | foreign o => simp

theorem asTrackable_append (h l : Heap) (e : Error) (v : trackable)
    (hv : asTrackable h e = some v) : asTrackable (h ++ l) e = some v := by
  rw [asTrackable_some] at hv ⊢
  exact deref_append h l e _ hv

theorem asTrackable_new (h : Heap) (v : trackable) :
    asTrackable (h ++ [Cell.own v]) (some h.length) = some v := by
  rw [asTrackable_some]
  exact deref_new h _

theorem trackable_Is_iff (h : Heap) (e : trackable) (target : Error) :
    e.Is h target = true ↔ 0 < e.id ∧ ∃ it, asTrackable h target = some it ∧ it.id = e.id := by
  unfold trackable.Is
  by_cases hid : e.id ≤ 0
  · simp [hid]
  · have hpos : 0 < e.id := by omega
    simp only [hid, if_false]
    cases hT : asTrackable h target with
    | none => simp
    | some it =>
      simp [hpos]
      exact eq_comm

theorem callIs_eq_true_iff (h : Heap) (x target : Error) :
    callIs h x target = some true ↔
      (∃ v, asTrackable h x = some v ∧ v.Is h target = true)
      ∨ (∃ o f, deref h x = some (Cell.foreign o) ∧ o.isMethod = some f ∧ f target = true) := by
  unfold callIs asTrackable
  cases hd : deref h x with
  | none => simp
  | some c =>
    cases c with
    | own w => simp
    | foreign o =>
      cases hm : o.isMethod with
      | none => simp [hm]
      | some f =>
        constructor
        · intro hf
          exact Or.inr ⟨o, f, rfl, hm, by simpa [hm] using hf⟩
        · rintro (⟨v, hv, _⟩ | ⟨o1, f1, ho1, hm1, hf1⟩)
          · simp at hv
          · have ho : o = o1 := by simpa using ho1
            subst ho
            rw [hm] at hm1
            cases hm1
            simpa [hm] using hf1

theorem matchesTarget_iff (h : Heap) (target : Error) (cmp : Bool) (x : Error) :
    matchesTarget h target cmp x = true
      ↔ (cmp = true ∧ x = target) ∨ callIs h x target = some true := by
  simp [matchesTarget]

theorem isComparable_own (h : Heap) (t : Error) (v : trackable)
    (ht : asTrackable h t = some v) : isComparable h t = some true := by
  rw [asTrackable_some] at ht
  simp [isComparable, ht]

theorem isComparable_of_isSome (h : Heap) (t : Error) (ht : (deref h t).isSome = true) :
    ∃ cmp, isComparable h t = some cmp := by
  unfold isComparable
  cases hd : deref h t with
  | none => simp [hd] at ht
  | some c =>
    cases c with
    | own v => exact ⟨true, rfl⟩
    | foreign o => exact ⟨o.comparable, rfl⟩

theorem Is_eq_chain (h : Heap) (target : Error) (cmp : Bool) (n : Nat) (e : Error) (fuel : Nat)
    (htarget : target ≠ none) (hcmp : isComparable h target = some cmp)
    (hfin : (errorsUnwrap h)^[n] e = none) (hfuel : n ≤ fuel)
    (hsingle : ∀ x ∈ chain h n e, (deref h x).isSome = true ∧ callUnwrapMulti h x = none) :
    Is h fuel e target = some ((chain h n e).any (matchesTarget h target cmp)) := by
  by_cases hne : e = none
  · subst hne
    have hnt : ¬ (none : Error) = target := fun heq => htarget heq.symm
    simp [Is, errorsIs, chain_none, hnt]
  · simp only [Is, errorsIs, hne, htarget, or_self, if_false, hcmp]
    exact errorsIsLoop_eq_chain h target cmp n e fuel hne hfin hfuel hsingle

theorem Is_hit (h : Heap) (target : Error) (cmp : Bool) (n : Nat) (e : Error) (fuel : Nat)
    (htarget : target ≠ none) (hcmp : isComparable h target = some cmp)
    (hfin : (errorsUnwrap h)^[n] e = none) (hfuel : n ≤ fuel)
    (hhit : ∃ x ∈ chain h n e, matchesTarget h target cmp x = true) :
    Is h fuel e target = some true := by
  have hne : e ≠ none := by
    intro he
    obtain ⟨x, hx, _⟩ := hhit
    simp [he, chain_none] at hx
  simp only [Is, errorsIs, hne, htarget, or_self, if_false, hcmp]
  exact errorsIsLoop_hit h target cmp n e fuel hfin hfuel hhit

theorem target_ne_none (h : Heap) (t : Error) (v : trackable) (ht : asTrackable h t = some v) :
    t ≠ none := by
  intro hnone
  subst hnone
  simp [asTrackable, deref] at ht

theorem errorsUnwrap_own (h : Heap) (x : Error) (v : trackable)
    (hv : asTrackable h x = some v) : errorsUnwrap h x = v.cause := by
  rw [asTrackable_some] at hv
  simp [errorsUnwrap, callUnwrap, hv, trackable.Unwrap]

theorem callUnwrap_own (h : Heap) (x : Error) (v : trackable)
    (hv : asTrackable h x = some v) : callUnwrap h x = some v.cause := by
  rw [asTrackable_some] at hv
  simp [callUnwrap, hv, trackable.Unwrap]

theorem IsTracked_iff (h : Heap) (e : Error) :
    IsTracked h e = true ↔ ∃ v cp, asTrackable h e = some v ∧ v.kind = Kind.trackedError cp := by
  unfold IsTracked
  cases hv : asTrackable h e with
  | none => simp
  | some v =>
    cases hk : v.kind with
    | untrackedError => simp [hk]
    | trackedError cp => simp [hk]

theorem Is_isSome (h : Heap) (target : Error) (n : Nat) (e : Error) (fuel : Nat)
    (hfin : (errorsUnwrap h)^[n] e = none) (hfuel : n ≤ fuel)
    (hsingle : ∀ x ∈ chain h n e, (deref h x).isSome = true ∧ callUnwrapMulti h x = none)
    (htarget : target = none ∨ (deref h target).isSome = true) :
    ∃ r, Is h fuel e target = some r := by
  by_cases hnone : target = none
  · exact ⟨decide (e = target), by simp [Is, errorsIs, hnone]⟩
  · have hsome : (deref h target).isSome = true := htarget.resolve_left hnone
    obtain ⟨cmp, hcmp⟩ := isComparable_of_isSome h target hsome
    exact ⟨_, Is_eq_chain h target cmp n e fuel hnone hcmp hfin hfuel hsingle⟩

/-! ## Strings -/

theorem stringsTrimSuffix_append (a b : String) : stringsTrimSuffix (a ++ b) b = a := by
  have hsuf : stringsHasSuffix (a ++ b) b = true := by
    simp [stringsHasSuffix, String.data_append]
  unfold stringsTrimSuffix
  rw [if_pos hsuf]
  apply String.ext
  simp [String.data_append]

theorem dropWhile_isSpace_append_colon (l : List Char) (rest : List Char) :
    (l ++ ':' :: rest).dropWhile unicodeIsSpace = l.dropWhile unicodeIsSpace ++ ':' :: rest := by
  induction l with
  | nil =>
    have hc : unicodeIsSpace ':' = false := by decide
    simp [List.dropWhile, hc]
  | cons x xs ih =>
    by_cases hx : unicodeIsSpace x = true
    · simp [List.dropWhile, hx, ih]
    · simp [List.dropWhile, hx]

theorem stringsTrimSpace_colon_space (x : String) :
    stringsTrimSpace (x ++ ": ") = String.mk (x.data.dropWhile unicodeIsSpace) ++ ":" := by
  have hc : unicodeIsSpace ':' = false := by decide
  have hs : unicodeIsSpace ' ' = true := by decide
  have hdata : (x ++ ": ").data = x.data ++ ':' :: [' '] := by
    rw [String.data_append]
  apply String.ext
  unfold stringsTrimSpace
  rw [hdata, dropWhile_isSpace_append_colon, String.data_append]
  simp [List.dropWhile, hc, hs]

theorem dropWhile_of_head (l : List Char)
    (hl : ∀ c, l.head? = some c → unicodeIsSpace c = false) :
    l.dropWhile unicodeIsSpace = l := by
  cases l with
  | nil => rfl
  | cons x xs =>
    have hx : unicodeIsSpace x = false := hl x rfl
    simp [List.dropWhile, hx]

/-! ## Extension of the heap -/

theorem callUnwrap_append (h l : Heap) (x : Error) (c : Cell) (hc : deref h x = some c) :
    callUnwrap (h ++ l) x = callUnwrap h x := by
  simp [callUnwrap, hc, deref_append h l x c hc]

theorem errorsUnwrap_append (h l : Heap) (x : Error) (a : Addr)
    (hu : errorsUnwrap h x = some a) : errorsUnwrap (h ++ l) x = some a := by
  cases hd : deref h x with
  | none => simp [errorsUnwrap, callUnwrap, hd] at hu
  | some c =>
    unfold errorsUnwrap at hu ⊢
    rw [callUnwrap_append h l x c hd]
    exact hu

theorem IsTracked_append (h l : Heap) (x : Error) (ht : IsTracked h x = true) :
    IsTracked (h ++ l) x = true := by
  obtain ⟨v, cp, hv, hk⟩ := (IsTracked_iff h x).1 ht
  exact (IsTracked_iff (h ++ l) x).2 ⟨v, cp, asTrackable_append h l x v hv, hk⟩

theorem callIs_append (h l : Heap) (x target : Error) (hc : callIs h x target = some true) :
    callIs (h ++ l) x target = some true := by
  rw [callIs_eq_true_iff] at hc ⊢
  rcases hc with ⟨v, hv, hvIs⟩ | ⟨o, f, ho, hm, hf⟩
  · obtain ⟨hpos, it, hit, hid⟩ := (trackable_Is_iff h v target).1 hvIs
    exact Or.inl ⟨v, asTrackable_append h l x v hv,
      (trackable_Is_iff (h ++ l) v target).2 ⟨hpos, it, asTrackable_append h l target it hit, hid⟩⟩
  · exact Or.inr ⟨o, f, deref_append h l x _ ho, hm, hf⟩

theorem asTrackable_append_eq (h l : Heap) (t : Error) (ht : (deref h t).isSome = true) :
    asTrackable (h ++ l) t = asTrackable h t := by
  cases hd : deref h t with
  | none => simp [hd] at ht
  | some c => simp [asTrackable, hd, deref_append h l t c hd]

theorem callIs_append_eq (h l : Heap) (x target : Error) (c : Cell)
    (hx : deref h x = some c) (ht : (deref h target).isSome = true) :
    callIs (h ++ l) x target = callIs h x target := by
  simp only [callIs, hx, deref_append h l x c hx]
  cases c with
  | own v => simp [trackable.Is, asTrackable_append_eq h l target ht]
  | foreign o => rfl

theorem callUnwrapMulti_append (h l : Heap) (x : Error) (c : Cell) (hc : deref h x = some c) :
    callUnwrapMulti (h ++ l) x = callUnwrapMulti h x := by
  simp [callUnwrapMulti, hc, deref_append h l x c hc]

theorem isComparable_append (h l : Heap) (t : Error) (cmp : Bool)
    (hcmp : isComparable h t = some cmp) : isComparable (h ++ l) t = some cmp := by
  cases hd : deref h t with
  | none => simp [isComparable, hd] at hcmp
  | some c =>
    simp only [isComparable, hd] at hcmp
    simp only [isComparable, deref_append h l t c hd]
    exact hcmp

theorem errorsIsRange_congr (f g : Error → Option Bool) (cs : List Error) (r : Bool)
    (hfg : ∀ c b, f c = some b → g c = some b) (hr : errorsIsRange f cs = some r) :
    errorsIsRange g cs = some r := by
  induction cs with
  | nil => simpa [errorsIsRange] using hr
  | cons c rest ih =>
    rw [errorsIsRange] at hr ⊢
    cases hf : f c with
    | none => simp [hf] at hr
    | some b =>
      rw [hf] at hr
      rw [hfg c b hf]
      cases b with
      | true => exact hr
      | false => exact ih hr

theorem errorsIsLoop_append (h l : Heap) (target : Error) (cmp : Bool) (fuel : Nat)
    (c : Error) (r : Bool) (ht : (deref h target).isSome = true)
    (hc : errorsIsLoop h target cmp fuel c = some r) :
    errorsIsLoop (h ++ l) target cmp fuel c = some r := by
  induction fuel generalizing c r with
  | zero => simp [errorsIsLoop] at hc
  | succ f ih =>
    rw [errorsIsLoop] at hc ⊢
    by_cases h1 : cmp = true ∧ c = target
    · rw [if_pos h1] at hc ⊢
      exact hc
    · rw [if_neg h1] at hc ⊢
      cases hd : deref h c with
      | none =>
        cases c with
        | none =>
          have e1 : callIs (h ++ l) none target = none := by simp [callIs, deref]
          have e2 : callUnwrap (h ++ l) none = none := by simp [callUnwrap, deref]
          have e3 : callUnwrapMulti (h ++ l) none = none := by simp [callUnwrapMulti, deref]
          have f1 : callIs h none target = none := by simp [callIs, deref]
          have f2 : callUnwrap h none = none := by simp [callUnwrap, deref]
          have f3 : callUnwrapMulti h none = none := by simp [callUnwrapMulti, deref]
          simp only [e1, e2, e3, f1, f2, f3] at hc ⊢
          simpa using hc
        | some a =>
          have f1 : callIs h (some a) target = none := by simp [callIs, hd]
          have f2 : callUnwrap h (some a) = none := by simp [callUnwrap, hd]
          have f3 : callUnwrapMulti h (some a) = none := by simp [callUnwrapMulti, hd]
          simp [f1, f2, f3, hd] at hc
      | some cell =>
        rw [callIs_append_eq h l c target cell hd ht, callUnwrap_append h l c cell hd,
          callUnwrapMulti_append h l c cell hd, deref_append h l c cell hd]
        rw [hd] at hc
        by_cases h2 : callIs h c target = some true
        · rw [if_pos h2] at hc ⊢
          exact hc
        · rw [if_neg h2] at hc ⊢
          cases hu : callUnwrap h c with
          | some cause =>
            rw [hu] at hc
            cases cause with
            | none => exact hc
            | some a => exact ih (some a) r hc
          | none =>
            rw [hu] at hc
            cases hm : callUnwrapMulti h c with
            | none =>
              rw [hm] at hc
              exact hc
            | some causes =>
              rw [hm] at hc
              exact errorsIsRange_congr _ _ causes r (fun x b hx => ih x b hx) hc

theorem HasTrackedLoop_append (h l : Heap) (fuel : Nat) (c : Error)
    (hc : HasTrackedLoop h fuel c = some true) :
    HasTrackedLoop (h ++ l) fuel c = some true := by
  induction fuel generalizing c with
  | zero => simp [HasTrackedLoop] at hc
  | succ f ih =>
    unfold HasTrackedLoop at hc ⊢
    by_cases h1 : c = none
    · simp [h1] at hc
    · simp only [h1, if_false] at hc ⊢
      by_cases h2 : IsTracked h c = true
      · simp [IsTracked_append h l c h2]
      · simp only [h2, if_false] at hc
        by_cases h3 : IsTracked (h ++ l) c = true
        · simp [h3]
        · simp only [h3, if_false]
          cases hd : deref h c with
          | none =>
            have hnone : callUnwrap h c = none := by simp [callUnwrap, hd]
            rw [hnone] at hc
            cases f with
            | zero => simp [HasTrackedLoop] at hc
            | succ g => simp [HasTrackedLoop] at hc
          | some cell =>
            rw [callUnwrap_append h l c cell hd]
            cases hu : callUnwrap h c with
            | none =>
              rw [hu] at hc
              exact ih none hc
            | some a =>
              rw [hu] at hc
              exact ih a hc

/-! ## The stack renderer -/

theorem callError_of_deref (ErrorStack2 : Heap → String → Error → String) (h : Heap)
    (x : Error) (hx : deref h x ≠ none) : ∃ s, callError ErrorStack2 h x = some s := by
  unfold callError
  cases hd : deref h x with
  | none => exact absurd hd hx
  | some c =>
    cases c with
    | own v => exact ⟨_, rfl⟩
    | foreign o => exact ⟨_, rfl⟩

theorem ErrorWithoutCause_of_deref (ErrorStack2 : Heap → String → Error → String) (h : Heap)
    (x : Error) (hx : deref h x ≠ none)
    (hcause : errorsUnwrap h x ≠ none → deref h (errorsUnwrap h x) ≠ none) :
    ∃ s, ErrorWithoutCause ErrorStack2 h x = some s := by
  obtain ⟨s, hs⟩ := callError_of_deref ErrorStack2 h x hx
  unfold ErrorWithoutCause
  rw [hs]
  by_cases hU : isUntrackedError h x = true
  · exact ⟨s, by simp [hU]⟩
  · by_cases hT : IsTracked h x = true
    · exact ⟨s, by simp [hU, hT]⟩
    · by_cases hc : errorsUnwrap h x = none
      · exact ⟨s, by simp [hU, hT, hc]⟩
      · obtain ⟨cs, hcs⟩ := callError_of_deref ErrorStack2 h _ (hcause hc)
        exact ⟨stringsTrimSuffix (stringsTrimSpace (stringsTrimSuffix s cs)) ":",
          by simp [hU, hT, hc, hcs]⟩

theorem texts_of_chain (ErrorStack2 : Heap → String → Error → String) (h : Heap) (n : Nat)
    (e : Error) (hfin : (errorsUnwrap h)^[n] e = none)
    (halloc : ∀ x ∈ chain h n e, deref h x ≠ none) :
    ∃ texts, List.Forall₂ (fun x s => ErrorWithoutCause ErrorStack2 h x = some s)
      (chain h n e) texts := by
  induction n generalizing e with
  | zero => exact ⟨[], by simp [chain]⟩
  | succ n ih =>
    by_cases he : e = none
    · exact ⟨[], by simp [chain, he]⟩
    · have hfin1 : (errorsUnwrap h)^[n] (errorsUnwrap h e) = none := by
        simpa [Function.iterate_succ] using hfin
      have hchain : chain h (n + 1) e = e :: chain h n (errorsUnwrap h e) := by
        simp [chain, he]
      rw [hchain] at halloc ⊢
      obtain ⟨ts, hts⟩ := ih (errorsUnwrap h e) hfin1
        (fun x hx => halloc x (List.mem_cons_of_mem _ hx))
      have hcause : errorsUnwrap h e ≠ none → deref h (errorsUnwrap h e) ≠ none := by
        intro hc
        apply halloc
        cases n with
        | zero => exact absurd (by simpa using hfin1) hc
        | succ m => simp [chain, hc]
      obtain ⟨s, hs⟩ := ErrorWithoutCause_of_deref ErrorStack2 h e
        (halloc e (List.mem_cons_self _ _)) hcause
      exact ⟨s :: ts, List.Forall₂.cons hs hts⟩

theorem ErrorStackLoop_eq_frames (ErrorStack2 : Heap → String → Error → String) (h : Heap)
    (stack : List Error) (texts : List String)
    (htexts : List.Forall₂ (fun x s => ErrorWithoutCause ErrorStack2 h x = some s) stack texts)
    (i : Nat) (sb : String) :
    ErrorStackLoop ErrorStack2 h i stack sb
      = some (sb ++ framesText (decide (i = 0)) ((stack.map (IsCheckpoint h)).zip texts)) := by
  induction htexts generalizing i sb with
  | nil => simp [ErrorStackLoop, framesText]
  | @cons x s0 rest ts hx _ ih =>
    have hzip : ((x :: rest).map (IsCheckpoint h)).zip (s0 :: ts)
        = (IsCheckpoint h x, s0) :: (rest.map (IsCheckpoint h)).zip ts := rfl
    rw [hzip]
    simp only [ErrorStackLoop, hx, framesText, ih]
    have hsucc : decide (i + 1 = 0) = false := by simp
    rw [hsucc]
    by_cases hcp : IsCheckpoint h x = true
    · by_cases hi : i = 0
      · simp [hi, hcp, frameText, String.append_assoc]
      · simp [hi, hcp, frameText, String.append_assoc]
    · by_cases hi : i = 0
      · simp [hi, hcp, frameText, String.append_assoc]
      · simp [hi, hcp, frameText, String.append_assoc]

theorem ErrorStack_eq_frames (ErrorStack2 : Heap → String → Error → String) (h : Heap)
    (e : Error) (n fuel : Nat) (texts : List String)
    (hfin : (errorsUnwrap h)^[n] e = none) (hfuel : n + 1 ≤ fuel)
    (htexts : List.Forall₂ (fun x s => ErrorWithoutCause ErrorStack2 h x = some s)
      (chain h n e) texts) :
    ErrorStack ErrorStack2 h fuel e
      = some (framesText true (((chain h n e).map (IsCheckpoint h)).zip texts) ++ "\n") := by
  simp only [ErrorStack, AsStack_eq_chain h n e fuel hfin hfuel,
    ErrorStackLoop_eq_frames ErrorStack2 h _ texts htexts 0 ""]
  simp

theorem intercalate_go_eq_framesText (acc : String) (texts : List String) :
    String.intercalate.go acc "\n⤷ " texts
      = acc ++ framesText false (texts.map fun s => (false, s)) := by
  induction texts generalizing acc with
  | nil => simp [String.intercalate.go, framesText]
  | cons t ts ih =>
    simp only [String.intercalate.go, List.map_cons, framesText, ih]
    simp [frameText, String.append_assoc]

theorem zip_of_no_checkpoint (ErrorStack2 : Heap → String → Error → String) (h : Heap)
    (stack : List Error) (texts : List String)
    (htexts : List.Forall₂ (fun x s => ErrorWithoutCause ErrorStack2 h x = some s) stack texts)
    (hplain : ∀ x ∈ stack, IsCheckpoint h x = false) :
    (stack.map (IsCheckpoint h)).zip texts = texts.map fun s => (false, s) := by
  induction htexts with
  | nil => rfl
  | @cons x s0 rest ts _ _ ih =>
    have hx : IsCheckpoint h x = false := hplain x (List.mem_cons_self _ _)
    have hrest := ih (fun y hy => hplain y (List.mem_cons_of_mem _ hy))
    show (IsCheckpoint h x, s0) :: (rest.map (IsCheckpoint h)).zip ts = _
    rw [hrest, hx]
    rfl

theorem stack_eq_chain (h : Heap) (e : Error) (n : Nat) (stack : List Error)
    (hfin : (errorsUnwrap h)^[n] e = none) (hstack : AsStack h (n + 1) e = some stack) :
    stack = chain h n e := by
  rw [AsStack_eq_chain h n e (n + 1) hfin (Nat.le_refl _)] at hstack
  exact (Option.some.inj hstack).symm

theorem allocated_of_isSome (h : Heap) (stack : List Error)
    (halloc : ∀ x ∈ stack, (deref h x).isSome = true) : ∀ x ∈ stack, deref h x ≠ none := by
  intro x hx hnone
  have hsome := halloc x hx
  rw [hnone] at hsome
  simp at hsome

/-! ## What an element of the chain must be to match a target -/

theorem matchesTarget_tracked_iff (h : Heap) (t x : Error) (vt : trackable)
    (ht : asTrackable h t = some vt) (hpos : 0 < vt.id) :
    matchesTarget h t true x = true ↔
      (x = t ∨ (∃ v, asTrackable h x = some v ∧ v.id = vt.id)
        ∨ (∃ o f, deref h x = some (Cell.foreign o) ∧ o.isMethod = some f ∧ f t = true)) := by
  rw [matchesTarget_iff]
  constructor
  · rintro (⟨_, heq⟩ | hcall)
    · exact Or.inl heq
    · rcases (callIs_eq_true_iff h x t).1 hcall with ⟨v, hv, hvIs⟩ | hforeign
      · obtain ⟨_, it, hit, hid⟩ := (trackable_Is_iff h v t).1 hvIs
        rw [ht] at hit
        cases hit
        exact Or.inr (Or.inl ⟨v, hv, hid.symm⟩)
      · exact Or.inr (Or.inr hforeign)
  · rintro (heq | ⟨v, hv, hid⟩ | hforeign)
    · exact Or.inl ⟨rfl, heq⟩
    · refine Or.inr ((callIs_eq_true_iff h x t).2 (Or.inl ⟨v, hv, ?_⟩))
      exact (trackable_Is_iff h v t).2 ⟨by omega, vt, ht, hid.symm⟩
    · exact Or.inr ((callIs_eq_true_iff h x t).2 (Or.inr hforeign))

theorem matchesTarget_untracked_iff (h : Heap) (b x : Error) (vb : trackable)
    (hb : asTrackable h b = some vb) (hidb : vb.id ≤ 0) :
    matchesTarget h b true x = true ↔
      (x = b
        ∨ (∃ o f, deref h x = some (Cell.foreign o) ∧ o.isMethod = some f ∧ f b = true)) := by
  rw [matchesTarget_iff]
  constructor
  · rintro (⟨_, heq⟩ | hcall)
    · exact Or.inl heq
    · rcases (callIs_eq_true_iff h x b).1 hcall with ⟨v, _, hvIs⟩ | hforeign
      · obtain ⟨hvpos, it, hit, hid⟩ := (trackable_Is_iff h v b).1 hvIs
        rw [hb] at hit
        cases hit
        omega
      · exact Or.inr hforeign
  · rintro (heq | hforeign)
    · exact Or.inl ⟨rfl, heq⟩
    · exact Or.inr ((callIs_eq_true_iff h x b).2 (Or.inr hforeign))

/-! ## Theorems -/

/-- C1: `e.Is(target)` is true exactly when the id of `e` is greater than 0
and `target` is one of the library's Error Values with the same id; the result
is the same whatever the message and cause of `e`, and whatever the message
and cause stored in the cell `target` points to. -/
theorem C1_trackable_Is_iff_same_positive_id (h : Heap) (e : trackable) (target : Error) :
    (e.Is h target = true ↔ 0 < e.id ∧ ∃ it, asTrackable h target = some it ∧ it.id = e.id)
    ∧ (∀ (m : String) (c : Error),
        trackable.Is h { e with msg := m, cause := c } target = e.Is h target)
    ∧ (∀ (hpre hpost : Heap) (it : trackable) (m : String) (c : Error),
        e.Is (hpre ++ Cell.own { it with msg := m, cause := c } :: hpost) (some hpre.length)
          = e.Is (hpre ++ Cell.own it :: hpost) (some hpre.length)) := by
  refine ⟨trackable_Is_iff h e target, ?_, ?_⟩
  · intro m c
    rfl
  · intro hpre hpost it m c
    simp [trackable.Is, asTrackable_middle]

/-- C2: for a tracked error `e` (the struct behind the pointer `p`) with
identity `k > 0` and any `cause`, the call `p.Wrap(cause)` returns a pointer
to a new cell (an address the heap did not have, different from `p`) that
holds the identity `k`, the message of `e` and the given cause, and both the
`Is` method of the new value and `Is(new, e)` answer true for `e`. -/
theorem C2_Wrap_keeps_identity (h : Heap) (p : Addr) (e : trackable) (k : Int) (cause : Error)
    (hp : asTrackable h (some p) = some e) (hk : e.id = k) (hpos : 0 < k) :
    ∃ h1 w v, callWrap h (some p) cause = some (h1, w)
      ∧ deref h w = none ∧ w ≠ some p
      ∧ asTrackable h1 w = some v
      ∧ v.id = k ∧ v.msg = e.msg ∧ v.cause = cause ∧ v.kind = e.kind
      ∧ asTrackable h1 (some p) = some e
      ∧ v.Is h1 (some p) = true
      ∧ ∀ fuel, 1 ≤ fuel → Is h1 fuel w (some p) = some true := by
  have hlt : p < h.length := deref_lt h p _ ((asTrackable_some h _ e).1 hp)
  have hnew : asTrackable (h ++ [Cell.own { e with cause := cause }]) (some h.length)
      = some { e with cause := cause } := asTrackable_new h _
  have hold : asTrackable (h ++ [Cell.own { e with cause := cause }]) (some p) = some e :=
    asTrackable_append h _ _ e hp
  have hIs : trackable.Is (h ++ [Cell.own { e with cause := cause }])
      { e with cause := cause } (some p) = true := by
    rw [trackable_Is_iff]
    exact ⟨by simpa [hk] using hpos, e, hold, rfl⟩
  refine ⟨h ++ [Cell.own { e with cause := cause }], some h.length, { e with cause := cause },
    ?_, deref_fresh h, ?_, hnew, hk, rfl, rfl, rfl, hold, hIs, ?_⟩
  · simp [callWrap, hp, trackable.Wrap, alloc]
  · intro heq
    have hpe : h.length = p := by simpa using heq
    exact absurd hpe (Nat.ne_of_gt hlt)
  · intro fuel hfuel
    obtain ⟨f, rfl⟩ : ∃ f, fuel = f + 1 := ⟨fuel - 1, by omega⟩
    have hcall : callIs (h ++ [Cell.own { e with cause := cause }]) (some h.length) (some p)
        = some true := by
      rw [callIs_eq_true_iff]
      exact Or.inl ⟨_, hnew, hIs⟩
    have hcmp : isComparable (h ++ [Cell.own { e with cause := cause }]) (some p) = some true :=
      isComparable_own _ _ e hold
    simp [Is, errorsIs, errorsIsLoop, hcall, hcmp]

/-- Witness of C2: the error made by `Track` on the empty heap, wrapped around
a nil cause. -/
theorem C2_Wrap_keeps_identity_witness :
    ∃ h1 w v, callWrap (Track 0 [] "boom").2.1 (some 0) none = some (h1, w)
      ∧ deref (Track 0 [] "boom").2.1 w = none ∧ w ≠ some 0
      ∧ asTrackable h1 w = some v
      ∧ v.id = 1 ∧ v.msg = "boom" ∧ v.cause = none ∧ v.kind = Kind.trackedError false
      ∧ asTrackable h1 (some 0)
          = some { kind := Kind.trackedError false, id := 1, msg := "boom", cause := none }
      ∧ v.Is h1 (some 0) = true
      ∧ ∀ fuel, 1 ≤ fuel → Is h1 fuel w (some 0) = some true :=
  C2_Wrap_keeps_identity (Track 0 [] "boom").2.1 0
    { kind := Kind.trackedError false, id := 1, msg := "boom", cause := none } 1 none
    rfl rfl (by decide)

/-- Counterexample to C3 as stated, at two inputs. On `heapPermissiveIs` the
chain of the third-party error at address 1 is just that error, which is
neither the tracked target at address 0 nor an Error Value with its identity,
and yet `Is` answers true, because the `Is` method of the third-party error
accepts the target. On `heapJoin` the chain of `errors.Join(t)` is just the
joined error, for `errors.Unwrap` does not look into a multi-cause error, and
yet `Is` answers true, because `errors.Is` searches the joined errors. -/
theorem C3_counterexample :
    asTrackable heapPermissiveIs (some 0)
        = some { kind := Kind.trackedError false, id := 1, msg := "t", cause := none }
    ∧ AsStack heapPermissiveIs 2 (some 1) = some [some 1]
    ∧ Is heapPermissiveIs 2 (some 1) (some 0) = some true
    ∧ ¬ (∃ x ∈ [(some 1 : Error)], x = some 0
          ∨ ∃ v, asTrackable heapPermissiveIs x = some v ∧ v.id = 1)
    ∧ asTrackable heapJoin (some 0)
        = some { kind := Kind.trackedError false, id := 1, msg := "t", cause := none }
    ∧ AsStack heapJoin 2 (some 1) = some [some 1]
    ∧ Is heapJoin 2 (some 1) (some 0) = some true
    ∧ ¬ (∃ x ∈ [(some 1 : Error)], x = some 0
          ∨ ∃ v, asTrackable heapJoin x = some v ∧ v.id = 1) := by
  refine ⟨rfl, by decide, by decide, ?_, rfl, by decide, by decide, ?_⟩
  · rintro ⟨x, hx, hor⟩
    have hx1 : x = some 1 := by simpa using hx
    subst hx1
    rcases hor with h0 | ⟨v, hv, _⟩
    · exact absurd h0 (by decide)
    · have hnone : asTrackable heapPermissiveIs (some 1) = none := rfl
      rw [hnone] at hv
      cases hv
  · rintro ⟨x, hx, hor⟩
    have hx1 : x = some 1 := by simpa using hx
    subst hx1
    rcases hor with h0 | ⟨v, hv, _⟩
    · exact absurd h0 (by decide)
    · have hnone : asTrackable heapJoin (some 1) = none := rfl
      rw [hnone] at hv
      cases hv

/-- C3, amended: for a finite chain `e` and a tracked target `t` with identity
greater than 0, `AsStack` returns with fuel `n + 1`, and `Is(e, t)` returns
true whenever some element of `AsStack(e)` is `t` itself, or is an Error Value
with the identity of `t`, or is a third-party error whose own `Is` method
accepts `t`. When every element of the chain is allocated and none exposes
`Unwrap() []error`, `Is(e, t)` returns with fuel `n + 1` and is true only
then. -/
theorem C3_Is_searches_whole_chain (h : Heap) (e t : Error) (vt : trackable) (n : Nat)
    (ht : asTrackable h t = some vt) (hpos : 0 < vt.id)
    (hfin : (errorsUnwrap h)^[n] e = none) :
    ∃ stack,
      (∀ fuel, n + 1 ≤ fuel → AsStack h fuel e = some stack)
      ∧ ((∃ x ∈ stack, x = t
            ∨ (∃ v, asTrackable h x = some v ∧ v.id = vt.id)
            ∨ (∃ o f, deref h x = some (Cell.foreign o) ∧ o.isMethod = some f ∧ f t = true)) →
          ∀ fuel, n + 1 ≤ fuel → Is h fuel e t = some true)
      ∧ ((∀ x ∈ stack, (deref h x).isSome = true ∧ callUnwrapMulti h x = none) →
          ∃ b, (∀ fuel, n + 1 ≤ fuel → Is h fuel e t = some b)
            ∧ (b = true ↔ ∃ x ∈ stack, x = t
                ∨ (∃ v, asTrackable h x = some v ∧ v.id = vt.id)
                ∨ (∃ o f, deref h x = some (Cell.foreign o) ∧ o.isMethod = some f
                    ∧ f t = true))) := by
  have htne : t ≠ none := target_ne_none h t vt ht
  have hcmp : isComparable h t = some true := isComparable_own h t vt ht
  refine ⟨chain h n e, fun fuel hfuel => AsStack_eq_chain h n e fuel hfin hfuel, ?_, ?_⟩
  · rintro ⟨x, hx, hD⟩ fuel hfuel
    exact Is_hit h t true n e fuel htne hcmp hfin (by omega)
      ⟨x, hx, (matchesTarget_tracked_iff h t x vt ht hpos).2 hD⟩
  · intro hsingle
    refine ⟨(chain h n e).any (matchesTarget h t true), ?_, ?_⟩
    · intro fuel hfuel
      exact Is_eq_chain h t true n e fuel htne hcmp hfin (by omega) hsingle
    · rw [List.any_eq_true]
      constructor
      · rintro ⟨x, hx, hm⟩
        exact ⟨x, hx, (matchesTarget_tracked_iff h t x vt ht hpos).1 hm⟩
      · rintro ⟨x, hx, hD⟩
        exact ⟨x, hx, (matchesTarget_tracked_iff h t x vt ht hpos).2 hD⟩

/-- Witness of C3: the tracked error at address 0 of `heapWrappedTracked` is
found under its untracked wrapper at address 1, whose chain has two allocated
elements with a single cause each. -/
theorem C3_Is_searches_whole_chain_witness :
    AsStack heapWrappedTracked 3 (some 1) = some [some 1, some 0]
    ∧ Is heapWrappedTracked 3 (some 1) (some 0) = some true
    ∧ ∃ stack,
      (∀ fuel, 2 + 1 ≤ fuel → AsStack heapWrappedTracked fuel (some 1) = some stack)
      ∧ ((∃ x ∈ stack, x = some 0
            ∨ (∃ v, asTrackable heapWrappedTracked x = some v ∧ v.id = 1)
            ∨ (∃ o f, deref heapWrappedTracked x = some (Cell.foreign o)
                ∧ o.isMethod = some f ∧ f (some 0) = true)) →
          ∀ fuel, 2 + 1 ≤ fuel → Is heapWrappedTracked fuel (some 1) (some 0) = some true)
      ∧ ((∀ x ∈ stack, (deref heapWrappedTracked x).isSome = true
            ∧ callUnwrapMulti heapWrappedTracked x = none) →
          ∃ b, (∀ fuel, 2 + 1 ≤ fuel → Is heapWrappedTracked fuel (some 1) (some 0) = some b)
            ∧ (b = true ↔ ∃ x ∈ stack, x = some 0
                ∨ (∃ v, asTrackable heapWrappedTracked x = some v ∧ v.id = 1)
                ∨ (∃ o f, deref heapWrappedTracked x = some (Cell.foreign o)
                    ∧ o.isMethod = some f ∧ f (some 0) = true))) :=
  ⟨by decide, by decide,
    C3_Is_searches_whole_chain heapWrappedTracked (some 1) (some 0)
      { kind := Kind.trackedError false, id := 1, msg := "t", cause := none } 2
      rfl (by decide) rfl⟩

/-- Counterexample to C4 as stated: `b := Untracked("m")` and
`a := Wrap(b, "m")` are two untracked errors (identity 0) with the same
message, and `Is(a, b)` is true, because `b` itself is in the chain of `a`.
On `heapJoinUntracked`, where `a := Wrap(errors.Join(b), "m")`, `Is(a, b)` is
true as well, although `AsStack(a)` holds only `a` and the joined error. -/
theorem C4_counterexample :
    (Untracked [] "m").2 = some 0
    ∧ (Wrap (Untracked [] "m").1 (Untracked [] "m").2 "m").2 = some 1
    ∧ asTrackable heapWrappedUntracked (some 0)
        = some { kind := Kind.untrackedError, id := 0, msg := "m", cause := none }
    ∧ asTrackable heapWrappedUntracked (some 1)
        = some { kind := Kind.untrackedError, id := 0, msg := "m", cause := some 0 }
    ∧ Is heapWrappedUntracked 2 (some 1) (some 0) = some true
    ∧ asTrackable heapJoinUntracked (some 0)
        = some { kind := Kind.untrackedError, id := 0, msg := "m", cause := none }
    ∧ asTrackable heapJoinUntracked (some 2)
        = some { kind := Kind.untrackedError, id := 0, msg := "m", cause := some 1 }
    ∧ AsStack heapJoinUntracked 3 (some 2) = some [some 2, some 1]
    ∧ Is heapJoinUntracked 3 (some 2) (some 0) = some true := by
  refine ⟨rfl, rfl, rfl, rfl, by decide, rfl, rfl, by decide, by decide⟩

/-- C4, amended: for two untracked Error Values `a` and `b` (identity at most
0) the identity-equality method `a.Is(b)` is false. For a finite chain `a`,
`Is(a, b)` returns true whenever some element of `AsStack(a)` is `b` itself
(the same reference) or is a third-party error whose own `Is` method accepts
`b`; when every element of the chain is allocated and none exposes
`Unwrap() []error`, `Is(a, b)` returns with fuel `n + 1` and is true only
then. -/
theorem C4_untracked_never_identity_equal (h : Heap) (a b : Error) (va vb : trackable)
    (n : Nat) (ha : asTrackable h a = some va) (hida : va.id ≤ 0)
    (hb : asTrackable h b = some vb) (hidb : vb.id ≤ 0)
    (hfin : (errorsUnwrap h)^[n] a = none) :
    va.Is h b = false
    ∧ ∃ stack,
      (∀ fuel, n + 1 ≤ fuel → AsStack h fuel a = some stack)
      ∧ ((∃ x ∈ stack, x = b
            ∨ (∃ o f, deref h x = some (Cell.foreign o) ∧ o.isMethod = some f ∧ f b = true)) →
          ∀ fuel, n + 1 ≤ fuel → Is h fuel a b = some true)
      ∧ ((∀ x ∈ stack, (deref h x).isSome = true ∧ callUnwrapMulti h x = none) →
          ∃ r, (∀ fuel, n + 1 ≤ fuel → Is h fuel a b = some r)
            ∧ (r = true ↔ ∃ x ∈ stack, x = b
                ∨ (∃ o f, deref h x = some (Cell.foreign o) ∧ o.isMethod = some f
                    ∧ f b = true))) := by
  have _hreceiver := ha
  have hbne : b ≠ none := target_ne_none h b vb hb
  have hcmp : isComparable h b = some true := isComparable_own h b vb hb
  refine ⟨by simp [trackable.Is, hida], chain h n a,
    fun fuel hfuel => AsStack_eq_chain h n a fuel hfin hfuel, ?_, ?_⟩
  · rintro ⟨x, hx, hD⟩ fuel hfuel
    exact Is_hit h b true n a fuel hbne hcmp hfin (by omega)
      ⟨x, hx, (matchesTarget_untracked_iff h b x vb hb hidb).2 hD⟩
  · intro hsingle
    refine ⟨(chain h n a).any (matchesTarget h b true), ?_, ?_⟩
    · intro fuel hfuel
      exact Is_eq_chain h b true n a fuel hbne hcmp hfin (by omega) hsingle
    · rw [List.any_eq_true]
      constructor
      · rintro ⟨x, hx, hm⟩
        exact ⟨x, hx, (matchesTarget_untracked_iff h b x vb hb hidb).1 hm⟩
      · rintro ⟨x, hx, hD⟩
        exact ⟨x, hx, (matchesTarget_untracked_iff h b x vb hb hidb).2 hD⟩

/-- Witness of C4: two separate untracked errors with the same message, made
by two calls of `Untracked`; `Is` of one against the other is false. -/
theorem C4_untracked_never_identity_equal_witness :
    Is (Untracked (Untracked [] "m").1 "m").1 2 (some 0) (some 1) = some false
    ∧ trackable.Is (Untracked (Untracked [] "m").1 "m").1
        { kind := Kind.untrackedError, id := 0, msg := "m", cause := none } (some 1) = false
    ∧ ∃ stack,
      (∀ fuel, 1 + 1 ≤ fuel →
        AsStack (Untracked (Untracked [] "m").1 "m").1 fuel (some 0) = some stack)
      ∧ ((∃ x ∈ stack, x = some 1
            ∨ (∃ o f, deref (Untracked (Untracked [] "m").1 "m").1 x = some (Cell.foreign o)
                ∧ o.isMethod = some f ∧ f (some 1) = true)) →
          ∀ fuel, 1 + 1 ≤ fuel →
            Is (Untracked (Untracked [] "m").1 "m").1 fuel (some 0) (some 1) = some true)
      ∧ ((∀ x ∈ stack, (deref (Untracked (Untracked [] "m").1 "m").1 x).isSome = true
            ∧ callUnwrapMulti (Untracked (Untracked [] "m").1 "m").1 x = none) →
          ∃ r, (∀ fuel, 1 + 1 ≤ fuel →
              Is (Untracked (Untracked [] "m").1 "m").1 fuel (some 0) (some 1) = some r)
            ∧ (r = true ↔ ∃ x ∈ stack, x = some 1
                ∨ (∃ o f, deref (Untracked (Untracked [] "m").1 "m").1 x
                      = some (Cell.foreign o)
                    ∧ o.isMethod = some f ∧ f (some 1) = true))) :=
  ⟨by decide,
    C4_untracked_never_identity_equal (Untracked (Untracked [] "m").1 "m").1 (some 0) (some 1)
      { kind := Kind.untrackedError, id := 0, msg := "m", cause := none }
      { kind := Kind.untrackedError, id := 0, msg := "m", cause := none } 1
      rfl (by decide) rfl (by decide) rfl⟩

/-- C5: wrapping never mutates the receiver. After `w1 = p.Wrap(c1)` and
`w2 = p.Wrap(c2)` the cell of `w1` holds the struct of `p` with cause `c1`,
the cell of `w2` holds it with cause `c2`, the cell of `p` holds exactly the
struct it held before (id, message, cause), and every cell of the heap before
the calls is unchanged. The same holds for `Because`, where the causes are
two new untracked errors with the two messages, and for `BecauseOf`, where
they are two new untracked errors with the two messages around `c1` and
`c2`. -/
theorem C5_wrapping_never_mutates (h : Heap) (p : Addr) (e : trackable) (c1 c2 : Error)
    (m1 m2 : String) (hp : asTrackable h (some p) = some e) :
    (∃ h1 w1 h2 w2,
        callWrap h (some p) c1 = some (h1, w1) ∧ callWrap h1 (some p) c2 = some (h2, w2)
        ∧ asTrackable h2 w1 = some { e with cause := c1 }
        ∧ asTrackable h2 w2 = some { e with cause := c2 }
        ∧ asTrackable h2 (some p) = some e
        ∧ ∀ x c, deref h x = some c → deref h2 x = some c)
    ∧ (∃ h1 w1 h2 w2 u1 u2,
        callBecause h (some p) m1 = some (h1, w1) ∧ callBecause h1 (some p) m2 = some (h2, w2)
        ∧ asTrackable h2 w1 = some { e with cause := u1 }
        ∧ asTrackable h2 u1
            = some { kind := Kind.untrackedError, id := 0, msg := m1, cause := none }
        ∧ asTrackable h2 w2 = some { e with cause := u2 }
        ∧ asTrackable h2 u2
            = some { kind := Kind.untrackedError, id := 0, msg := m2, cause := none }
        ∧ asTrackable h2 (some p) = some e
        ∧ ∀ x c, deref h x = some c → deref h2 x = some c)
    ∧ (∃ h1 w1 h2 w2 u1 u2,
        callBecauseOf h (some p) c1 m1 = some (h1, w1)
        ∧ callBecauseOf h1 (some p) c2 m2 = some (h2, w2)
        ∧ asTrackable h2 w1 = some { e with cause := u1 }
        ∧ asTrackable h2 u1
            = some { kind := Kind.untrackedError, id := 0, msg := m1, cause := c1 }
        ∧ asTrackable h2 w2 = some { e with cause := u2 }
        ∧ asTrackable h2 u2
            = some { kind := Kind.untrackedError, id := 0, msg := m2, cause := c2 }
        ∧ asTrackable h2 (some p) = some e
        ∧ ∀ x c, deref h x = some c → deref h2 x = some c) := by
  refine ⟨?_, ?_, ?_⟩
  · have hp1 : asTrackable (h ++ [Cell.own { e with cause := c1 }]) (some p) = some e :=
      asTrackable_append h _ _ e hp
    refine ⟨h ++ [Cell.own { e with cause := c1 }], some h.length,
      (h ++ [Cell.own { e with cause := c1 }]) ++ [Cell.own { e with cause := c2 }],
      some (h ++ [Cell.own { e with cause := c1 }]).length, ?_, ?_, ?_, ?_, ?_, ?_⟩
    · simp [callWrap, hp, trackable.Wrap, alloc]
    · simp [callWrap, hp1, trackable.Wrap, alloc]
    · exact asTrackable_append _ _ _ _ (asTrackable_new h _)
    · exact asTrackable_new _ _
    · exact asTrackable_append _ _ _ _ hp1
    · intro x c hx
      exact deref_append _ _ _ _ (deref_append _ _ _ _ hx)
  · have hp1 : asTrackable
        ((h ++ [Cell.own { kind := Kind.untrackedError, id := 0, msg := m1, cause := none }])
          ++ [Cell.own { e with cause := some h.length }]) (some p) = some e :=
      asTrackable_append _ _ _ e (asTrackable_append h _ _ e hp)
    generalize hh1 :
      (h ++ [Cell.own { kind := Kind.untrackedError, id := 0, msg := m1, cause := none }])
          ++ [Cell.own { e with cause := some h.length }] = h1 at hp1
    refine ⟨h1, some (h.length + 1),
      (h1 ++ [Cell.own { kind := Kind.untrackedError, id := 0, msg := m2, cause := none }])
          ++ [Cell.own { e with cause := some h1.length }],
      some (h1.length + 1), some h.length, some h1.length, ?_, ?_, ?_, ?_, ?_, ?_, ?_, ?_⟩
    · simp [callBecause, hp, trackable.Because, Untracked, alloc, ← hh1]
    · simp [callBecause, hp1, trackable.Because, Untracked, alloc]
    · refine asTrackable_append _ _ _ _ (asTrackable_append _ _ _ _ ?_)
      rw [← hh1]
      have hnew := asTrackable_new
        (h ++ [Cell.own { kind := Kind.untrackedError, id := 0, msg := m1, cause := none }])
        { e with cause := some h.length }
      simpa using hnew
    · refine asTrackable_append _ _ _ _ (asTrackable_append _ _ _ _ ?_)
      rw [← hh1]
      exact asTrackable_append _ _ _ _ (asTrackable_new h _)
    · have hnew := asTrackable_new
        (h1 ++ [Cell.own { kind := Kind.untrackedError, id := 0, msg := m2, cause := none }])
        { e with cause := some h1.length }
      simpa using hnew
    · exact asTrackable_append _ _ _ _ (asTrackable_new h1 _)
    · exact asTrackable_append _ _ _ _ (asTrackable_append _ _ _ _ hp1)
    · intro x c hx
      refine deref_append _ _ _ _ (deref_append _ _ _ _ ?_)
      rw [← hh1]
      exact deref_append _ _ _ _ (deref_append _ _ _ _ hx)
  · have hp1 : asTrackable
        ((h ++ [Cell.own { kind := Kind.untrackedError, id := 0, msg := m1, cause := c1 }])
          ++ [Cell.own { e with cause := some h.length }]) (some p) = some e :=
      asTrackable_append _ _ _ e (asTrackable_append h _ _ e hp)
    generalize hh1 :
      (h ++ [Cell.own { kind := Kind.untrackedError, id := 0, msg := m1, cause := c1 }])
          ++ [Cell.own { e with cause := some h.length }] = h1 at hp1
    refine ⟨h1, some (h.length + 1),
      (h1 ++ [Cell.own { kind := Kind.untrackedError, id := 0, msg := m2, cause := c2 }])
          ++ [Cell.own { e with cause := some h1.length }],
      some (h1.length + 1), some h.length, some h1.length, ?_, ?_, ?_, ?_, ?_, ?_, ?_, ?_⟩
    · simp [callBecauseOf, hp, trackable.BecauseOf, Wrap, alloc, ← hh1]
    · simp [callBecauseOf, hp1, trackable.BecauseOf, Wrap, alloc]
    · refine asTrackable_append _ _ _ _ (asTrackable_append _ _ _ _ ?_)
      rw [← hh1]
      have hnew := asTrackable_new
        (h ++ [Cell.own { kind := Kind.untrackedError, id := 0, msg := m1, cause := c1 }])
        { e with cause := some h.length }
      simpa using hnew
    · refine asTrackable_append _ _ _ _ (asTrackable_append _ _ _ _ ?_)
      rw [← hh1]
      exact asTrackable_append _ _ _ _ (asTrackable_new h _)
    · have hnew := asTrackable_new
        (h1 ++ [Cell.own { kind := Kind.untrackedError, id := 0, msg := m2, cause := c2 }])
        { e with cause := some h1.length }
      simpa using hnew
    · exact asTrackable_append _ _ _ _ (asTrackable_new h1 _)
    · exact asTrackable_append _ _ _ _ (asTrackable_append _ _ _ _ hp1)
    · intro x c hx
      refine deref_append _ _ _ _ (deref_append _ _ _ _ ?_)
      rw [← hh1]
      exact deref_append _ _ _ _ (deref_append _ _ _ _ hx)

/-- Witness of C5: the tracked error made by `Track` on the empty heap is
wrapped twice, around nil and around itself. -/
theorem C5_wrapping_never_mutates_witness :
    (∃ h1 w1 h2 w2,
        callWrap (Track 0 [] "boom").2.1 (some 0) none = some (h1, w1)
        ∧ callWrap h1 (some 0) (some 0) = some (h2, w2)
        ∧ asTrackable h2 w1
            = some { kind := Kind.trackedError false, id := 1, msg := "boom", cause := none }
        ∧ asTrackable h2 w2
            = some { kind := Kind.trackedError false, id := 1, msg := "boom", cause := some 0 }
        ∧ asTrackable h2 (some 0)
            = some { kind := Kind.trackedError false, id := 1, msg := "boom", cause := none }
        ∧ ∀ x c, deref (Track 0 [] "boom").2.1 x = some c → deref h2 x = some c) :=
  (C5_wrapping_never_mutates (Track 0 [] "boom").2.1 0
    { kind := Kind.trackedError false, id := 1, msg := "boom", cause := none }
    none (some 0) "a" "b" rfl).1

/-- C6: for a finite causal chain (`n` unwrappings of `e` reach nil) `AsStack`
returns with fuel `n + 1` and returns the chain in order: the empty stack for
nil; otherwise `e` first, no nil element, every later element the direct cause
(`errors.Unwrap`) of the one before it, and a last element without a cause.
For `e1 = Untracked("a")`, `e2 = Wrap(e1, "b")`, `e3 = Wrap(e2, "c")`, made on
any heap, `AsStack(e3)` is `[e3, e2, e1]`. -/
theorem C6_AsStack_returns_chain_in_order (h : Heap) (e : Error) (n : Nat)
    (hfin : (errorsUnwrap h)^[n] e = none) :
    (∃ stack, (∀ fuel, n + 1 ≤ fuel → AsStack h fuel e = some stack)
        ∧ (e = none → stack = [])
        ∧ (e ≠ none → stack.head? = some e)
        ∧ (∀ x ∈ stack, x ≠ none)
        ∧ (∀ i, i + 1 < stack.length → stack[i + 1]? = (stack[i]?).map (errorsUnwrap h))
        ∧ (∀ x, stack.getLast? = some x → errorsUnwrap h x = none))
    ∧ (∀ fuel, 1 ≤ fuel → AsStack h fuel none = some [])
    ∧ (∀ h0 h1 e1 h2 e2 h3 e3, Untracked h0 "a" = (h1, e1) → Wrap h1 e1 "b" = (h2, e2) →
        Wrap h2 e2 "c" = (h3, e3) →
        ∀ fuel, 4 ≤ fuel → AsStack h3 fuel e3 = some [e3, e2, e1]) := by
  refine ⟨⟨chain h n e, fun fuel hfuel => AsStack_eq_chain h n e fuel hfin hfuel,
    ?_, ?_, ?_, ?_, ?_⟩, ?_, ?_⟩
  · intro he
    rw [he, chain_none]
  · intro he
    cases n with
    | zero => exact absurd (by simpa using hfin) he
    | succ n => simp [chain, he]
  · intro x hx
    obtain ⟨i, hi, hget⟩ := List.getElem_of_mem hx
    have hspec := chain_getElem h n e i hi
    rw [List.getElem?_eq_getElem hi, hget] at hspec
    have hxeq : x = (errorsUnwrap h)^[i] e := by simpa using hspec.1
    rw [hxeq]
    exact hspec.2
  · intro i hi
    have h0 := chain_getElem h n e i (by omega)
    have h1 := chain_getElem h n e (i + 1) hi
    rw [h1.1, h0.1, Function.iterate_succ_apply']
    rfl
  · intro x hx
    have hne : chain h n e ≠ [] := by
      intro hnil
      simp [hnil] at hx
    have hpos : 0 < (chain h n e).length := List.length_pos.2 hne
    have hlast := chain_getElem h n e ((chain h n e).length - 1) (by omega)
    rw [List.getLast?_eq_getElem?] at hx
    rw [hx] at hlast
    have hxeq : x = (errorsUnwrap h)^[(chain h n e).length - 1] e := by simpa using hlast.1
    have hend := chain_end h n e hfin
    have hsucc : (chain h n e).length = ((chain h n e).length - 1) + 1 := by omega
    rw [hsucc, Function.iterate_succ_apply'] at hend
    rw [hxeq]
    exact hend
  · intro fuel hfuel
    obtain ⟨f, rfl⟩ : ∃ f, fuel = f + 1 := ⟨fuel - 1, by omega⟩
    simp [AsStack, AsStackLoop]
  · intro h0 h1 e1 h2 e2 h3 e3 hU hW2 hW3 fuel hfuel
    simp only [Untracked, Wrap, alloc, Prod.mk.injEq] at hU hW2 hW3
    obtain ⟨hh1, he1⟩ := hU
    obtain ⟨hh2, he2⟩ := hW2
    obtain ⟨hh3, he3⟩ := hW3
    have a1 : asTrackable h1 e1
        = some { kind := Kind.untrackedError, id := 0, msg := "a", cause := none } := by
      rw [← hh1, ← he1]
      exact asTrackable_new h0 _
    have a2 : asTrackable h2 e2
        = some { kind := Kind.untrackedError, id := 0, msg := "b", cause := e1 } := by
      rw [← hh2, ← he2]
      exact asTrackable_new h1 _
    have a3 : asTrackable h3 e3
        = some { kind := Kind.untrackedError, id := 0, msg := "c", cause := e2 } := by
      rw [← hh3, ← he3]
      exact asTrackable_new h2 _
    have a2in3 := asTrackable_append h2 [Cell.own
      { kind := Kind.untrackedError, id := 0, msg := "c", cause := e2 }] e2 _ a2
    have a1in2 := asTrackable_append h1 [Cell.own
      { kind := Kind.untrackedError, id := 0, msg := "b", cause := e1 }] e1 _ a1
    rw [hh2] at a1in2
    have a1in3 := asTrackable_append h2 [Cell.own
      { kind := Kind.untrackedError, id := 0, msg := "c", cause := e2 }] e1 _ a1in2
    rw [hh3] at a2in3 a1in3
    have u3 : errorsUnwrap h3 e3 = e2 := errorsUnwrap_own h3 e3 _ a3
    have u2 : errorsUnwrap h3 e2 = e1 := errorsUnwrap_own h3 e2 _ a2in3
    have u1 : errorsUnwrap h3 e1 = none := errorsUnwrap_own h3 e1 _ a1in3
    have n3 : e3 ≠ none := target_ne_none h3 e3 _ a3
    have n2 : e2 ≠ none := target_ne_none h3 e2 _ a2in3
    have n1 : e1 ≠ none := target_ne_none h3 e1 _ a1in3
    have hfin3 : (errorsUnwrap h3)^[3] e3 = none := by
      simp [Function.iterate_succ, u3, u2, u1]
    rw [AsStack_eq_chain h3 3 e3 fuel hfin3 hfuel]
    simp [chain, n3, n2, n1, u3, u2]

/-- Witness of C6: the chain of three errors built on the empty heap. -/
theorem C6_AsStack_returns_chain_in_order_witness :
    AsStack (Wrap (Wrap (Untracked [] "a").1 (some 0) "b").1 (some 1) "c").1 4 (some 2)
      = some [some 2, some 1, some 0] :=
  (C6_AsStack_returns_chain_in_order
      (Wrap (Wrap (Untracked [] "a").1 (some 0) "b").1 (some 1) "c").1 (some 2) 3 rfl).2.2
    [] (Untracked [] "a").1 (some 0) (Wrap (Untracked [] "a").1 (some 0) "b").1 (some 1)
    (Wrap (Wrap (Untracked [] "a").1 (some 0) "b").1 (some 1) "c").1 (some 2)
    rfl rfl rfl 4 (Nat.le_refl 4)

/-- C7: for a finite causal chain `HasTracked` returns with fuel `n + 1`, and
it is true exactly when `IsTracked` holds for at least one element of
`AsStack(e)`; `HasTracked(nil)` is false; `IsTracked` looks only at the value
the error itself points to, so an untracked wrapper made by `Wrap` around an
error made by `Track` has `IsTracked` false and `HasTracked` true. -/
theorem C7_HasTracked_iff_some_element_tracked (h : Heap) (e : Error) (n : Nat)
    (hfin : (errorsUnwrap h)^[n] e = none) :
    (∃ stack b,
        (∀ fuel, n + 1 ≤ fuel → AsStack h fuel e = some stack ∧ HasTracked h fuel e = some b)
        ∧ (b = true ↔ ∃ x ∈ stack, IsTracked h x = true))
    ∧ (∀ fuel, 1 ≤ fuel → HasTracked h fuel none = some false)
    ∧ (IsTracked h e = true
        ↔ ∃ v cp, asTrackable h e = some v ∧ v.kind = Kind.trackedError cp)
    ∧ (∀ counter h0 msgT msgW counter1 h1 t h2 w, Track counter h0 msgT = (counter1, h1, t) →
        Wrap h1 t msgW = (h2, w) →
        IsTracked h2 t = true ∧ IsTracked h2 w = false
        ∧ ∀ fuel, 2 ≤ fuel → HasTracked h2 fuel w = some true) := by
  refine ⟨⟨chain h n e, (chain h n e).any (IsTracked h), ?_, ?_⟩, ?_, IsTracked_iff h e, ?_⟩
  · intro fuel hfuel
    exact ⟨AsStack_eq_chain h n e fuel hfin hfuel, HasTrackedLoop_eq_chain h n e fuel hfin hfuel⟩
  · rw [List.any_eq_true]
  · intro fuel hfuel
    obtain ⟨f, rfl⟩ : ∃ f, fuel = f + 1 := ⟨fuel - 1, by omega⟩
    simp [HasTracked, HasTrackedLoop]
  · intro counter h0 msgT msgW counter1 h1 t h2 w hT hW
    simp only [Track, newId, Wrap, alloc, Prod.mk.injEq] at hT hW
    obtain ⟨_, hh1, ht⟩ := hT
    obtain ⟨hh2, hw⟩ := hW
    have at1 : asTrackable h1 t = some
        { kind := Kind.trackedError false, id := counter + 1, msg := msgT, cause := none } := by
      rw [← hh1, ← ht]
      exact asTrackable_new h0 _
    have aw : asTrackable h2 w
        = some { kind := Kind.untrackedError, id := 0, msg := msgW, cause := t } := by
      rw [← hh2, ← hw]
      exact asTrackable_new h1 _
    have at2 := asTrackable_append h1 [Cell.own
      { kind := Kind.untrackedError, id := 0, msg := msgW, cause := t }] t _ at1
    rw [hh2] at at2
    have hTt : IsTracked h2 t = true := (IsTracked_iff h2 t).2 ⟨_, false, at2, rfl⟩
    have hTw : IsTracked h2 w = false := by simp [IsTracked, aw]
    refine ⟨hTt, hTw, ?_⟩
    intro fuel hfuel
    obtain ⟨f, rfl⟩ : ∃ f, fuel = f + 2 := ⟨fuel - 2, by omega⟩
    have nw : w ≠ none := target_ne_none h2 w _ aw
    have nt : t ≠ none := target_ne_none h2 t _ at2
    simp [HasTracked, HasTrackedLoop, nw, nt, hTw, hTt, callUnwrap_own h2 w _ aw]

/-- Witness of C7: the untracked wrapper at address 1 of `heapWrappedTracked`,
whose chain has two elements. -/
theorem C7_HasTracked_iff_some_element_tracked_witness :
    (∃ stack b,
        (∀ fuel, 2 + 1 ≤ fuel → AsStack heapWrappedTracked fuel (some 1) = some stack
          ∧ HasTracked heapWrappedTracked fuel (some 1) = some b)
        ∧ (b = true ↔ ∃ x ∈ stack, IsTracked heapWrappedTracked x = true)) :=
  (C7_HasTracked_iff_some_element_tracked heapWrappedTracked (some 1) 2 rfl).1

/-- C8: for every error `e` and every list of targets, `All` is true exactly
when `Is(e, t)` is true for every target `t`; `All` returns whenever `Is`
returns for each target, which it does for a finite chain (fuel at least its
length) of allocated errors with at most a single cause each and targets that
are nil or allocated; with no targets `All` is true. -/
theorem C8_All_iff_every_target (h : Heap) (e : Error) (targets : List Error) (fuel : Nat) :
    (All h fuel e targets = some true ↔ ∀ t ∈ targets, Is h fuel e t = some true)
    ∧ ((∀ t ∈ targets, ∃ r, Is h fuel e t = some r) →
        ∃ b, All h fuel e targets = some b
          ∧ (b = true ↔ ∀ t ∈ targets, Is h fuel e t = some true))
    ∧ (∀ n stack, (errorsUnwrap h)^[n] e = none → n ≤ fuel →
        AsStack h (n + 1) e = some stack →
        (∀ x ∈ stack, (deref h x).isSome = true ∧ callUnwrapMulti h x = none) →
        (∀ t ∈ targets, t = none ∨ (deref h t).isSome = true) →
        ∀ t ∈ targets, ∃ r, Is h fuel e t = some r)
    ∧ All h fuel e [] = some true := by
  refine ⟨?_, ?_, ?_, rfl⟩
  · induction targets with
    | nil => simp [All]
    | cons t ts ih =>
      have hunfold : All h fuel e (t :: ts) = (match Is h fuel e t with
          | none => none
          | some false => some false
          | some true => All h fuel e ts) := rfl
      cases hr : Is h fuel e t with
      | none =>
        rw [hunfold, hr]
        simp [hr]
      | some r =>
        cases r with
        | false =>
          rw [hunfold, hr]
          simp [hr]
        | true =>
          rw [hunfold, hr]
          simp [hr, ih]
  · intro hret
    induction targets with
    | nil => exact ⟨true, rfl, by simp⟩
    | cons t ts ih =>
      obtain ⟨r, hr⟩ := hret t (List.mem_cons_self _ _)
      have hr1 : errorsIs h fuel e t = some r := hr
      obtain ⟨b, hb, hiff⟩ := ih (fun x hx => hret x (List.mem_cons_of_mem _ hx))
      cases r with
      | false =>
        refine ⟨false, by simp [All, hr1], ?_⟩
        simp [hr]
      | true =>
        refine ⟨b, by simp [All, hr1, hb], ?_⟩
        simp [hr, hiff]
  · intro n stack hfin hfuel hstack hsingle htargets t ht
    have hchain := stack_eq_chain h e n stack hfin hstack
    subst hchain
    exact Is_isSome h t n e fuel hfin hfuel hsingle (htargets t ht)

/-- Witness of C8: the untracked wrapper of `heapWrappedTracked` against the
tracked error it wraps and against itself. -/
theorem C8_All_iff_every_target_witness :
    (∃ b, All heapWrappedTracked 2 (some 1) [some 0, some 1] = some b
        ∧ (b = true ↔ ∀ t ∈ [(some 0 : Error), some 1],
            Is heapWrappedTracked 2 (some 1) t = some true))
    ∧ All heapWrappedTracked 2 (some 1) [] = some true :=
  ⟨(C8_All_iff_every_target heapWrappedTracked (some 1) [some 0, some 1] 2).2.1
      ((C8_All_iff_every_target heapWrappedTracked (some 1) [some 0, some 1] 2).2.2.1
        2 [some 1, some 0] rfl (Nat.le_refl 2) (by decide) (by decide) (by decide)),
    (C8_All_iff_every_target heapWrappedTracked (some 1) [some 0, some 1] 2).2.2.2⟩

/-- C9: for every error `e` and every list of targets, `Any` is true only
when `Is(e, t)` is true for some target `t`, and whenever `Is` returns for
each target `Any` returns and is true exactly when `Is(e, t)` is true for at
least one target; `Is` returns for a finite chain (fuel at least its length)
of allocated errors with at most a single cause each and targets that are nil
or allocated; with no targets `Any` is false. -/
theorem C9_Any_iff_some_target (h : Heap) (e : Error) (targets : List Error) (fuel : Nat) :
    (Any h fuel e targets = some true → ∃ t ∈ targets, Is h fuel e t = some true)
    ∧ ((∀ t ∈ targets, ∃ r, Is h fuel e t = some r) →
        ∃ b, Any h fuel e targets = some b
          ∧ (b = true ↔ ∃ t ∈ targets, Is h fuel e t = some true))
    ∧ (∀ n stack, (errorsUnwrap h)^[n] e = none → n ≤ fuel →
        AsStack h (n + 1) e = some stack →
        (∀ x ∈ stack, (deref h x).isSome = true ∧ callUnwrapMulti h x = none) →
        (∀ t ∈ targets, t = none ∨ (deref h t).isSome = true) →
        ∀ t ∈ targets, ∃ r, Is h fuel e t = some r)
    ∧ Any h fuel e [] = some false := by
  refine ⟨?_, ?_, ?_, rfl⟩
  · induction targets with
    | nil => simp [Any]
    | cons t ts ih =>
      have hunfold : Any h fuel e (t :: ts) = (match Is h fuel e t with
          | none => none
          | some true => some true
          | some false => Any h fuel e ts) := rfl
      cases hr : Is h fuel e t with
      | none =>
        rw [hunfold, hr]
        simp
      | some r =>
        cases r with
        | true =>
          rw [hunfold, hr]
          intro _
          exact ⟨t, List.mem_cons_self _ _, hr⟩
        | false =>
          rw [hunfold, hr]
          intro hany
          obtain ⟨x, hx, hxi⟩ := ih hany
          exact ⟨x, List.mem_cons_of_mem _ hx, hxi⟩
  · intro hret
    induction targets with
    | nil => exact ⟨false, rfl, by simp⟩
    | cons t ts ih =>
      obtain ⟨r, hr⟩ := hret t (List.mem_cons_self _ _)
      have hr1 : errorsIs h fuel e t = some r := hr
      obtain ⟨b, hb, hiff⟩ := ih (fun x hx => hret x (List.mem_cons_of_mem _ hx))
      cases r with
      | true =>
        refine ⟨true, by simp [Any, hr1], ?_⟩
        simp [hr]
      | false =>
        refine ⟨b, by simp [Any, hr1, hb], ?_⟩
        simp [hr, hiff]
  · intro n stack hfin hfuel hstack hsingle htargets t ht
    have hchain := stack_eq_chain h e n stack hfin hstack
    subst hchain
    exact Is_isSome h t n e fuel hfin hfuel hsingle (htargets t ht)

/-- Witness of C9: the untracked wrapper of `heapWrappedTracked` against nil
and the tracked error it wraps. -/
theorem C9_Any_iff_some_target_witness :
    (∃ b, Any heapWrappedTracked 2 (some 1) [none, some 0] = some b
        ∧ (b = true ↔ ∃ t ∈ [(none : Error), some 0],
            Is heapWrappedTracked 2 (some 1) t = some true))
    ∧ Any heapWrappedTracked 2 (some 1) [] = some false :=
  ⟨(C9_Any_iff_some_target heapWrappedTracked (some 1) [none, some 0] 2).2.1
      ((C9_Any_iff_some_target heapWrappedTracked (some 1) [none, some 0] 2).2.2.1
        2 [some 1, some 0] rfl (Nat.le_refl 2) (by decide) (by decide) (by decide)),
    (C9_Any_iff_some_target heapWrappedTracked (some 1) [none, some 0] 2).2.2.2⟩

/-- Counterexample to C10 as stated: the third-party error at address 1 of
`heapLeadingSpace` has the cause at address 0, whose text is `b`, and its own
text is exactly `" a" + ": " + "b"`; `ErrorWithoutCause` returns `a`, without
the leading blank, not `" a"`. -/
theorem C10_counterexample :
    errorsUnwrap heapLeadingSpace (some 1) = some 0
    ∧ callError (fun _ m _ => m) heapLeadingSpace (some 0) = some "b"
    ∧ callError (fun _ m _ => m) heapLeadingSpace (some 1) = some (" a" ++ ": " ++ "b")
    ∧ ErrorWithoutCause (fun _ m _ => m) heapLeadingSpace (some 1) = some "a"
    ∧ ErrorWithoutCause (fun _ m _ => m) heapLeadingSpace (some 1) ≠ some " a" := by
  refine ⟨rfl, rfl, by decide, by decide, by decide⟩

/-- C10, amended: for a third-party error `e` with a cause whose rendered text
is `Y`, if the rendered text of `e` is exactly `X + ": " + Y` then
`ErrorWithoutCause(e)` returns `X` with its leading white space removed; it
returns exactly `X` when `X` does not begin with white space. -/
theorem C10_ErrorWithoutCause_strips_cause
    (ErrorStack2 : Heap → String → Error → String) (h : Heap) (e : Error) (o : thirdParty)
    (X Y : String) (he : deref h e = some (Cell.foreign o))
    (hcause : errorsUnwrap h e ≠ none)
    (hY : callError ErrorStack2 h (errorsUnwrap h e) = some Y)
    (htext : o.text = X ++ ": " ++ Y) :
    ErrorWithoutCause ErrorStack2 h e = some (String.mk (X.data.dropWhile unicodeIsSpace))
    ∧ ((∀ c, X.data.head? = some c → unicodeIsSpace c = false) →
        ErrorWithoutCause ErrorStack2 h e = some X) := by
  have hres : ErrorWithoutCause ErrorStack2 h e
      = some (String.mk (X.data.dropWhile unicodeIsSpace)) := by
    have hE : callError ErrorStack2 h e = some (X ++ ": " ++ Y) := by
      simp [callError, he, htext]
    have hU : isUntrackedError h e = false := by
      simp [isUntrackedError, asTrackable, he]
    have hT : IsTracked h e = false := by
      simp [IsTracked, asTrackable, he]
    simp only [ErrorWithoutCause, hE, hU, hT, hcause, hY, if_false, Bool.false_eq_true]
    rw [stringsTrimSuffix_append, stringsTrimSpace_colon_space, stringsTrimSuffix_append]
  refine ⟨hres, ?_⟩
  intro hX
  rw [hres, dropWhile_of_head X.data hX]

/-- Witness of C10: the third-party error `save: disk full` of
`heapForeignChain`, whose cause has the text `disk full`. -/
theorem C10_ErrorWithoutCause_strips_cause_witness :
    ErrorWithoutCause (fun _ m _ => m) heapForeignChain (some 1)
        = some (String.mk ("save".data.dropWhile unicodeIsSpace))
    ∧ ((∀ c, "save".data.head? = some c → unicodeIsSpace c = false) →
        ErrorWithoutCause (fun _ m _ => m) heapForeignChain (some 1) = some "save") :=
  C10_ErrorWithoutCause_strips_cause (fun _ m _ => m) heapForeignChain (some 1)
    { text := "save: disk full", unwrap := some (some 0), isMethod := none }
    "save" "disk full" rfl (by decide) rfl (by decide)

/-- C11: `ErrorWithoutCause(e)` returns the rendered text `e.Error()` exactly
as it is, whenever `e` has no cause and whenever `e` is one of the library's
own Error Values (of either pointer type, with or without a cause). -/
theorem C11_ErrorWithoutCause_keeps_text
    (ErrorStack2 : Heap → String → Error → String) (h : Heap) (e : Error) (s : String)
    (hs : callError ErrorStack2 h e = some s)
    (hcase : errorsUnwrap h e = none ∨ ∃ v, asTrackable h e = some v) :
    ErrorWithoutCause ErrorStack2 h e = some s := by
  unfold ErrorWithoutCause
  rw [hs]
  rcases hcase with hnone | ⟨v, hv⟩
  · simp only [hnone]
    by_cases hU : isUntrackedError h e = true
    · simp [hU]
    · by_cases hT : IsTracked h e = true
      · simp [hU, hT]
      · simp [hU, hT]
  · cases hk : v.kind with
    | untrackedError =>
      have hU : isUntrackedError h e = true := by simp [isUntrackedError, hv, hk]
      simp [hU]
    | trackedError cp =>
      have hU : isUntrackedError h e = false := by simp [isUntrackedError, hv, hk]
      have hT : IsTracked h e = true := by simp [IsTracked, hv, hk]
      simp [hU, hT]

/-- Witness of C11: the untracked wrapper of `heapWrappedTracked`, an Error
Value with a cause. -/
theorem C11_ErrorWithoutCause_keeps_text_witness :
    ErrorWithoutCause renderMessage heapWrappedTracked (some 1) = some "w" :=
  C11_ErrorWithoutCause_keeps_text renderMessage heapWrappedTracked (some 1) "w" rfl
    (Or.inr ⟨{ kind := Kind.untrackedError, id := 0, msg := "w", cause := some 0 }, rfl⟩)

/-- Counterexample to C12 as stated: on the empty heap `ErrorStack(nil)` is
the text of a single newline, which is neither the nil notice of `Debug` nor
any text that holds the words `nil error`. -/
theorem C12_counterexample :
    ErrorStack renderMessage [] 1 none = some "\n"
    ∧ ErrorStack renderMessage [] 1 none ≠ some "[Debugging error] nil error"
    ∧ ErrorStack renderMessage [] 1 none ≠ some "nil error"
    ∧ "\n".length = 1 := by
  refine ⟨by decide, by decide, by decide, by decide⟩

/-- C12, amended: `ErrorStack(nil)` does not yield a nil notice. `AsStack(nil)`
is empty, no frame is written, and the result is the trailing newline alone:
it is not the empty string and it is not the notice text of `Debug`. -/
theorem C12_ErrorStack_nil_is_newline
    (ErrorStack2 : Heap → String → Error → String) (h : Heap) (fuel : Nat) :
    AsStack h (fuel + 1) none = some []
    ∧ ErrorStack ErrorStack2 h (fuel + 1) none = some "\n"
    ∧ ErrorStack ErrorStack2 h (fuel + 1) none ≠ some ""
    ∧ ErrorStack ErrorStack2 h (fuel + 1) none ≠ some "[Debugging error] nil error" := by
  have hstack : AsStack h (fuel + 1) none = some [] := by simp [AsStack, AsStackLoop]
  have hres : ErrorStack ErrorStack2 h (fuel + 1) none = some "\n" := by
    simp only [ErrorStack, hstack, ErrorStackLoop]
    rfl
  refine ⟨hstack, hres, ?_, ?_⟩
  · rw [hres]
    decide
  · rw [hres]
    decide

/-- Counterexample to C13 as stated: with Error Values that render as their
message, `ErrorStack(top)` of the scenario is the three lines `  save failed`,
`——saving file——` and `⤷ disk failure`, each followed by a newline; the second
line, the checkpoint frame, starts with the bracketing and not with the arrow
connector. -/
theorem C13_counterexample :
    scenario = some (heapScenario, some 4)
    ∧ ErrorStack renderMessage heapScenario 4 (some 4)
        = some ("  save failed" ++ "\n" ++ "——saving file——" ++ "\n" ++ "⤷ disk failure" ++ "\n")
    ∧ '\n' ∉ "  save failed".data ∧ '\n' ∉ "——saving file——".data
    ∧ '\n' ∉ "⤷ disk failure".data
    ∧ "⤷ ".data.isPrefixOf "——saving file——".data = false := by
  refine ⟨rfl, by decide, by decide, by decide, by decide, by decide⟩

/-- C13, amended: in the end-to-end scenario `ErrorStack(top)` is two blanks
and the text of `top`; then, on a new line, the checkpoint frame: the text of
`mid.Wrap(root)` bracketed by `——` on both sides, without an arrow connector;
then, on a new line, the arrow connector and the text of `root`; then the
trailing newline. With Error Values that render as their message this is
exactly `  save failed`, `——saving file——`, `⤷ disk failure`, one per line. -/
theorem C13_end_to_end_rendering (ErrorStack2 : Heap → String → Error → String) (fuel : Nat) :
    scenario = some (heapScenario, some 4)
    ∧ AsStack heapScenario (fuel + 4) (some 4) = some [some 4, some 2, some 0]
    ∧ ErrorStack ErrorStack2 heapScenario (fuel + 4) (some 4)
        = some ("  " ++ ErrorStack2 heapScenario "save failed" (some 2)
            ++ "\n——" ++ ErrorStack2 heapScenario "saving file" (some 0) ++ "——"
            ++ "\n⤷ " ++ ErrorStack2 heapScenario "disk failure" none ++ "\n")
    ∧ ErrorStack renderMessage heapScenario (fuel + 4) (some 4)
        = some "  save failed\n——saving file——\n⤷ disk failure\n" := by
  have hstack : AsStack heapScenario (fuel + 4) (some 4) = some [some 4, some 2, some 0] := by
    rw [AsStack_eq_chain heapScenario 3 (some 4) (fuel + 4) rfl (by omega)]
    rfl
  have hgen : ∀ ES2 : Heap → String → Error → String,
      ErrorStack ES2 heapScenario (fuel + 4) (some 4)
        = some ("  " ++ ES2 heapScenario "save failed" (some 2)
            ++ "\n——" ++ ES2 heapScenario "saving file" (some 0) ++ "——"
            ++ "\n⤷ " ++ ES2 heapScenario "disk failure" none ++ "\n") := by
    intro ES2
    simp only [ErrorStack, hstack]
    rfl
  refine ⟨rfl, hstack, hgen ErrorStack2, ?_⟩
  rw [hgen renderMessage]
  decide

/-- C14, the code at the failing input: for a nil error `Debug` hands the
header and the result of `ErrorStack(nil)`, a newline, to the writer, and not
the nil notice: the test `s == ""` never holds. -/
theorem C14_Debug_nil_prints_header_and_newline
    (ErrorStack2 : Heap → String → Error → String) (h : Heap) (fuel : Nat) :
    Debug ErrorStack2 h (fuel + 1) none = some "[Debugging error]\n\n"
    ∧ Debug ErrorStack2 h (fuel + 1) none ≠ some "[Debugging error] nil error" := by
  have hstack : AsStack h (fuel + 1) none = some [] := by simp [AsStack, AsStackLoop]
  have hres : ErrorStack ErrorStack2 h (fuel + 1) none = some "\n" := by
    simp only [ErrorStack, hstack, ErrorStackLoop]
    rfl
  have hne : ¬ ("\n" : String) = "" := by decide
  have hdebug : Debug ErrorStack2 h (fuel + 1) none = some "[Debugging error]\n\n" := by
    simp only [Debug, hres, hne, if_false]
    rfl
  refine ⟨hdebug, ?_⟩
  rw [hdebug]
  decide

/-- C15: the sugar methods equal their desugarings. `e.Because(msg)` returns
the very heap and pointer of `e.Wrap(Untracked(msg))`, and
`e.BecauseOf(cause, msg)` those of `e.Wrap(Wrap(cause, msg))`. The result
points to a copy of `e` (same id, message and pointer type) whose cause is a
new untracked error with the message `msg`, and that error unwraps to nil for
`Because` and to `cause` for `BecauseOf`. -/
theorem C15_sugar_equals_desugaring (h : Heap) (e : trackable) (cause : Error) (msg : String) :
    e.Because h msg = trackable.Wrap (Untracked h msg).1 e (Untracked h msg).2
    ∧ e.BecauseOf h cause msg = trackable.Wrap (Wrap h cause msg).1 e (Wrap h cause msg).2
    ∧ (∃ h1 w u v, e.Because h msg = (h1, w)
        ∧ asTrackable h1 w = some v ∧ v.id = e.id ∧ v.msg = e.msg ∧ v.kind = e.kind
        ∧ errorsUnwrap h1 w = u
        ∧ asTrackable h1 u
            = some { kind := Kind.untrackedError, id := 0, msg := msg, cause := none }
        ∧ errorsUnwrap h1 u = none)
    ∧ (∃ h1 w u v, e.BecauseOf h cause msg = (h1, w)
        ∧ asTrackable h1 w = some v ∧ v.id = e.id ∧ v.msg = e.msg ∧ v.kind = e.kind
        ∧ errorsUnwrap h1 w = u
        ∧ asTrackable h1 u
            = some { kind := Kind.untrackedError, id := 0, msg := msg, cause := cause }
        ∧ errorsUnwrap h1 u = cause) := by
  refine ⟨rfl, rfl, ?_, ?_⟩
  · have hu : asTrackable
        ((h ++ [Cell.own { kind := Kind.untrackedError, id := 0, msg := msg, cause := none }])
          ++ [Cell.own { e with cause := some h.length }]) (some h.length)
        = some { kind := Kind.untrackedError, id := 0, msg := msg, cause := none } :=
      asTrackable_append _ _ _ _ (asTrackable_new h _)
    have hw := asTrackable_new
      (h ++ [Cell.own { kind := Kind.untrackedError, id := 0, msg := msg, cause := none }])
      { e with cause := some h.length }
    refine ⟨_, _, some h.length, { e with cause := some h.length }, rfl, hw, rfl, rfl, rfl,
      ?_, hu, ?_⟩
    · exact errorsUnwrap_own _ _ _ hw
    · exact errorsUnwrap_own _ _ _ hu
  · have hu : asTrackable
        ((h ++ [Cell.own { kind := Kind.untrackedError, id := 0, msg := msg, cause := cause }])
          ++ [Cell.own { e with cause := some h.length }]) (some h.length)
        = some { kind := Kind.untrackedError, id := 0, msg := msg, cause := cause } :=
      asTrackable_append _ _ _ _ (asTrackable_new h _)
    have hw := asTrackable_new
      (h ++ [Cell.own { kind := Kind.untrackedError, id := 0, msg := msg, cause := cause }])
      { e with cause := some h.length }
    refine ⟨_, _, some h.length, { e with cause := some h.length }, rfl, hw, rfl, rfl, rfl,
      ?_, hu, ?_⟩
    · exact errorsUnwrap_own _ _ _ hw
    · exact errorsUnwrap_own _ _ _ hu

/-- C16: for a non-nil finite chain `e` whose elements are all allocated and
none of which is a checkpoint, every element has a display text
(`ErrorWithoutCause`), and `ErrorStack(e)` is two blanks, the display texts
of `AsStack(e)` in order joined by a newline and the arrow connector, and one
trailing newline. -/
theorem C16_ErrorStack_without_checkpoints
    (ErrorStack2 : Heap → String → Error → String) (h : Heap) (e : Error) (n : Nat)
    (stack : List Error) (hne : e ≠ none) (hfin : (errorsUnwrap h)^[n] e = none)
    (hstack : AsStack h (n + 1) e = some stack)
    (halloc : ∀ x ∈ stack, (deref h x).isSome = true)
    (hplain : ∀ x ∈ stack, IsCheckpoint h x = false) :
    ∃ texts, List.Forall₂ (fun x s => ErrorWithoutCause ErrorStack2 h x = some s) stack texts
      ∧ stack.head? = some e
      ∧ ∀ fuel, n + 1 ≤ fuel →
          ErrorStack ErrorStack2 h fuel e
            = some ("  " ++ "\n⤷ ".intercalate texts ++ "\n") := by
  have hchain := stack_eq_chain h e n stack hfin hstack
  subst hchain
  obtain ⟨texts, htexts⟩ := texts_of_chain ErrorStack2 h n e hfin
    (allocated_of_isSome h _ halloc)
  have hhead : (chain h n e).head? = some e := by
    cases n with
    | zero => exact absurd (by simpa using hfin) hne
    | succ m => simp [chain, hne]
  refine ⟨texts, htexts, hhead, ?_⟩
  intro fuel hfuel
  rw [ErrorStack_eq_frames ErrorStack2 h e n fuel texts hfin hfuel htexts,
    zip_of_no_checkpoint ErrorStack2 h _ texts htexts hplain]
  cases texts with
  | nil =>
    have hlen := List.Forall₂.length_eq htexts
    cases hc : chain h n e with
    | nil => simp [hc] at hhead
    | cons a l => simp [hc] at hlen
  | cons t ts =>
    simp only [List.map_cons, framesText, String.intercalate,
      intercalate_go_eq_framesText]
    simp [frameText, String.append_assoc]

/-- Witness of C16: the untracked wrapper of `heapWrappedTracked` and the
tracked error under it, neither of them a checkpoint. -/
theorem C16_ErrorStack_without_checkpoints_witness :
    ∃ texts, List.Forall₂ (fun x s => ErrorWithoutCause renderMessage heapWrappedTracked x = some s)
        [some 1, some 0] texts
      ∧ [(some 1 : Error), some 0].head? = some (some 1)
      ∧ ∀ fuel, 2 + 1 ≤ fuel →
          ErrorStack renderMessage heapWrappedTracked fuel (some 1)
            = some ("  " ++ "\n⤷ ".intercalate texts ++ "\n") :=
  C16_ErrorStack_without_checkpoints renderMessage heapWrappedTracked (some 1) 2
    [some 1, some 0] (by decide) rfl (by decide) (by decide) (by decide)

/-- C18: identity equality between Error Values is symmetric (`a.Is(b)`
equals `b.Is(a)`) and transitive (`a.Is(b)` and `b.Is(c)` give `a.Is(c)`), and
it is not reflexive for an untracked value (identity at most 0). -/
theorem C18_identity_equality_symmetric_transitive (h : Heap) (a b c : Error)
    (va vb vc : trackable) (ha : asTrackable h a = some va) (hb : asTrackable h b = some vb)
    (hc : asTrackable h c = some vc) :
    va.Is h b = vb.Is h a
    ∧ (va.Is h b = true → vb.Is h c = true → va.Is h c = true)
    ∧ (va.id ≤ 0 → va.Is h a = false) := by
  have hab : va.Is h b = true ↔ 0 < va.id ∧ vb.id = va.id := by
    rw [trackable_Is_iff, hb]
    simp
  have hba : vb.Is h a = true ↔ 0 < vb.id ∧ va.id = vb.id := by
    rw [trackable_Is_iff, ha]
    simp
  have hbc : vb.Is h c = true ↔ 0 < vb.id ∧ vc.id = vb.id := by
    rw [trackable_Is_iff, hc]
    simp
  have hac : va.Is h c = true ↔ 0 < va.id ∧ vc.id = va.id := by
    rw [trackable_Is_iff, hc]
    simp
  refine ⟨?_, ?_, ?_⟩
  · rw [Bool.eq_iff_iff, hab, hba]
    constructor
    · rintro ⟨h1, h2⟩
      exact ⟨by omega, h2.symm⟩
    · rintro ⟨h1, h2⟩
      exact ⟨by omega, h2.symm⟩
  · intro h1 h2
    obtain ⟨p1, p2⟩ := hab.1 h1
    obtain ⟨_, q2⟩ := hbc.1 h2
    exact hac.2 ⟨p1, by omega⟩
  · intro hid
    simp [trackable.Is, hid]

/-- Witness of C18: the tracked error of `heapWrappedTracked` and its
untracked wrapper. -/
theorem C18_identity_equality_symmetric_transitive_witness :
    trackable.Is heapWrappedTracked
        { kind := Kind.untrackedError, id := 0, msg := "w", cause := some 0 } (some 0)
      = trackable.Is heapWrappedTracked
        { kind := Kind.trackedError false, id := 1, msg := "t", cause := none } (some 1)
    ∧ (trackable.Is heapWrappedTracked
        { kind := Kind.untrackedError, id := 0, msg := "w", cause := some 0 } (some 0) = true →
      trackable.Is heapWrappedTracked
        { kind := Kind.trackedError false, id := 1, msg := "t", cause := none } (some 0) = true →
      trackable.Is heapWrappedTracked
        { kind := Kind.untrackedError, id := 0, msg := "w", cause := some 0 } (some 0) = true)
    ∧ ((0 : Int) ≤ 0 → trackable.Is heapWrappedTracked
        { kind := Kind.untrackedError, id := 0, msg := "w", cause := some 0 } (some 1) = false) :=
  C18_identity_equality_symmetric_transitive heapWrappedTracked (some 1) (some 0) (some 0)
    { kind := Kind.untrackedError, id := 0, msg := "w", cause := some 0 }
    { kind := Kind.trackedError false, id := 1, msg := "t", cause := none }
    { kind := Kind.trackedError false, id := 1, msg := "t", cause := none }
    rfl rfl rfl

/-- Counterexample to C19 as stated: for the nil chain and the nil target
`Is(nil, nil)` is true, but `Wrap(nil, "m")` and `e.Wrap(nil)` are not nil, so
`Is` of either against nil is false. -/
theorem C19_counterexample :
    Is [] 1 none none = some true
    ∧ (Wrap [] none "m").2 = some 0
    ∧ Is (Wrap [] none "m").1 2 (Wrap [] none "m").2 none = some false
    ∧ Is (trackable.Wrap []
          { kind := Kind.trackedError false, id := 1, msg := "t", cause := none } none).1 2
        (trackable.Wrap []
          { kind := Kind.trackedError false, id := 1, msg := "t", cause := none } none).2 none
        = some false := by
  refine ⟨by decide, rfl, by decide, by decide⟩

/-- C19, amended: trackedness and identity matches are never lost by adding a
layer. If `HasTracked(c)` is true then so are `HasTracked(Wrap(c, msg))` and
`HasTracked(e.Wrap(c))`; and for a target `t` that is not nil, if `Is(c, t)`
is true then so are `Is(Wrap(c, msg), t)` and `Is(e.Wrap(c), t)`. One more
unit of fuel serves the added layer. -/
theorem C19_layers_keep_matches (h : Heap) (c t : Error) (e : trackable) (msg : String)
    (fuel : Nat) :
    (HasTracked h fuel c = some true →
        HasTracked (Wrap h c msg).1 (fuel + 1) (Wrap h c msg).2 = some true
        ∧ HasTracked (e.Wrap h c).1 (fuel + 1) (e.Wrap h c).2 = some true)
    ∧ (t ≠ none → Is h fuel c t = some true →
        Is (Wrap h c msg).1 (fuel + 1) (Wrap h c msg).2 t = some true
        ∧ Is (e.Wrap h c).1 (fuel + 1) (e.Wrap h c).2 t = some true) := by
  have key : ∀ v : trackable, v.cause = c →
      (HasTracked h fuel c = some true →
        HasTracked (h ++ [Cell.own v]) (fuel + 1) (some h.length) = some true)
      ∧ (t ≠ none → Is h fuel c t = some true →
        Is (h ++ [Cell.own v]) (fuel + 1) (some h.length) t = some true) := by
    intro v hv
    have hw : asTrackable (h ++ [Cell.own v]) (some h.length) = some v := asTrackable_new h v
    constructor
    · intro hT
      have hT1 := HasTrackedLoop_append h [Cell.own v] fuel c hT
      simp only [HasTracked, HasTrackedLoop, callUnwrap_own _ _ _ hw, hv, reduceCtorEq, if_false]
      by_cases hk : IsTracked (h ++ [Cell.own v]) (some h.length) = true
      · simp [hk]
      · simp only [hk, if_false]
        exact hT1
    · intro ht hIs
      have hcne : c ≠ none := by
        intro hnone
        subst hnone
        have hnt : ¬ (none : Error) = t := fun heq => ht heq.symm
        simp [Is, errorsIs, hnt] at hIs
      have htsome : (deref h t).isSome = true := by
        cases hd : deref h t with
        | none => simp [Is, errorsIs, hcne, ht, isComparable, hd] at hIs
        | some cell => rfl
      obtain ⟨cmp, hcmp⟩ := isComparable_of_isSome h t htsome
      have hloop : errorsIsLoop h t cmp fuel c = some true := by
        simpa [Is, errorsIs, hcne, ht, hcmp] using hIs
      have hloop1 := errorsIsLoop_append h [Cell.own v] t cmp fuel c true htsome hloop
      obtain ⟨a, ha⟩ : ∃ a, c = some a := Option.ne_none_iff_exists'.1 hcne
      have hu : callUnwrap (h ++ [Cell.own v]) (some h.length) = some (some a) := by
        rw [callUnwrap_own _ _ _ hw, hv, ha]
      simp only [Is, errorsIs, ht, reduceCtorEq, or_self, if_false,
        isComparable_append h [Cell.own v] t cmp hcmp]
      rw [errorsIsLoop]
      by_cases h1 : cmp = true ∧ some h.length = t
      · rw [if_pos h1]
      · rw [if_neg h1]
        by_cases h2 : callIs (h ++ [Cell.own v]) (some h.length) t = some true
        · rw [if_pos h2]
        · rw [if_neg h2, hu]
          rw [ha] at hloop1
          exact hloop1
  have kW := key { kind := Kind.untrackedError, id := 0, msg := msg, cause := c } rfl
  have kE := key { e with cause := c } rfl
  refine ⟨fun hT => ⟨kW.1 hT, kE.1 hT⟩, fun ht hIs => ⟨kW.2 ht hIs, kE.2 ht hIs⟩⟩

/-- Witness of C19: the tracked error at address 0 of `heapWrappedTracked` is
wrapped once more, by `Wrap` and by the method of a tracked value. -/
theorem C19_layers_keep_matches_witness :
    (HasTracked (Wrap heapWrappedTracked (some 0) "again").1 2
        (Wrap heapWrappedTracked (some 0) "again").2 = some true
      ∧ HasTracked (trackable.Wrap heapWrappedTracked
          { kind := Kind.trackedError false, id := 7, msg := "e", cause := none } (some 0)).1 2
        (trackable.Wrap heapWrappedTracked
          { kind := Kind.trackedError false, id := 7, msg := "e", cause := none } (some 0)).2
        = some true)
    ∧ (Is (Wrap heapWrappedTracked (some 0) "again").1 2
        (Wrap heapWrappedTracked (some 0) "again").2 (some 0) = some true
      ∧ Is (trackable.Wrap heapWrappedTracked
          { kind := Kind.trackedError false, id := 7, msg := "e", cause := none } (some 0)).1 2
        (trackable.Wrap heapWrappedTracked
          { kind := Kind.trackedError false, id := 7, msg := "e", cause := none } (some 0)).2
        (some 0) = some true) :=
  ⟨(C19_layers_keep_matches heapWrappedTracked (some 0) (some 0)
      { kind := Kind.trackedError false, id := 7, msg := "e", cause := none } "again" 1).1
      (by decide),
   (C19_layers_keep_matches heapWrappedTracked (some 0) (some 0)
      { kind := Kind.trackedError false, id := 7, msg := "e", cause := none } "again" 1).2
      (by decide) (by decide)⟩

end Trackerr
